import Mathlib

/-!
Shallow embedding of the screenshots-diff toolkit's core diffing routine
(src/screenshots-diff/diffImagesAsync.ts) and proofs about it.

Modelling conventions:
* A decoded image is a `width`/`height` pair together with its pixel data as a
  list of packed 32-bit RGBA words.  JavaScript typed arrays are little-endian
  in practice, so byte 0 of a word is the red sample, byte 1 green, byte 2
  blue and byte 3 alpha; the source's `Uint32Array` view over the RGBA byte
  buffer is modelled by `listGet`/`listSet`/`listBlit` over that word list,
  and the source's byte reads `diffData[i8 + k]` become `byteAt word k`.
* JavaScript doubles are modelled as exact rationals (`ℚ`); the literals
  0.299, 0.587, 0.114 and 0.03 become `mkRat 299 1000` etc.
* JavaScript bitwise ops on 32-bit lattice values: `(v >> 3) & 0x001f1f1f` is
  modelled as `(v >>> 3) &&& 0x001f1f1f`, which agrees with the signed JS
  shift because the mask clears every bit where an arithmetic and a logical
  shift of a 32-bit value can differ; `|` on nonnegative 32-bit values stored
  back into a `Uint32Array` is plain `|||`.
* The `threshold` argument is `Option ℚ`: `none` models a missing or NaN
  (invalid) value; note that JavaScript `threshold || DEFAULT_THRESHOLD`
  also falls back when `threshold` is `0`, which the model reproduces.
* File existence is modelled by feeding `diffImagesAsync` an `Option` per
  side: loading, decoding and the final file write are out of scope (spec
  section 1), so the function returns the would-be-written canvas and its
  dimensions alongside `mismatchedPixels`/`diffHash`, plus `diffFileWritten`
  for the `mismatchedPixels !== 0` write condition.
-/

namespace ScreenshotsDiff

/-- Read a word from a list of 32-bit words, defaulting to 0: models a load
from the (zero-initialised) canvas buffer. -/
def listGet (l : List Nat) (i : Nat) : Nat := l.getD i 0

/-- Copy a whole source slice into a list starting at index `i`: models
`Uint32Array.prototype.set(src, i)`. -/
def listBlit : List Nat → Nat → List Nat → List Nat
  | l, _, [] => l
  | l, i, v :: vs => listBlit (l.set i v) (i + 1) vs

/-- Fill indices `[lo, hi)` with `v`: models `TypedArray.fill(v, lo, hi)`. -/
def listFill (l : List Nat) (v lo hi : Nat) : List Nat :=
  (List.range' lo (hi - lo)).foldl (fun acc i => acc.set i v) l

/-- Byte `i` of a packed little-endian 32-bit word: byte 0 = red, byte 1 =
green, byte 2 = blue, byte 3 = alpha of an RGBA pixel. -/
def byteAt (w i : Nat) : Nat := w / 2 ^ (8 * i) % 256

/-- Absolute difference of two byte values, `Math.abs(a - b)` on naturals. -/
def absDiff (a b : Nat) : Nat := max a b - min a b

/-- Source line 13: `const DEFAULT_THRESHOLD = 0.03`. -/
def DEFAULT_THRESHOLD : ℚ := mkRat 3 100

/-- Source line 14: `const COLOR_HIGHLIGHT_ABGR = 0xff0000ff` (opaque red). -/
def COLOR_HIGHLIGHT_ABGR : Nat := 0xff0000ff

/-- Source line 15: `const DIFF_HASH_SPREAD = 0x1337`. -/
def DIFF_HASH_SPREAD : ℤ := 0x1337

/-- The literal `0xffffffff` (fully opaque pure white) used by the
checkerboard tint guards on lines 229 and 233. -/
def WHITE_ABGR : Nat := 0xffffffff

/-- Modelled from the spec: `MISSING_BASELINE` is imported from "./types",
which is not part of the sources; spec section 3 says `mismatchedPixels` is
"one of two sentinel negative values meaning baseline image absent /
candidate image absent", so the two sentinels are modelled as distinct
negative integers. -/
def MISSING_BASELINE : ℤ := -1

/-- Modelled from the spec: `MISSING_CANDIDATE` is imported from "./types",
which is not part of the sources; see `MISSING_BASELINE`. -/
def MISSING_CANDIDATE : ℤ := -2

/-- Source lines 196-208: the brightness difference of two packed pixels.
If the words are equal it is 0; otherwise it is the weighted sum of the
absolute differences of bytes 1, 2 and 3 of each word (the code reads
`diffData[bIndex8 + 1 .. + 3]`, i.e. the green, blue and alpha samples of
the RGBA layout, even though its comment says red, green, blue). -/
def brightnessDiff (b c : Nat) : ℚ :=
  if b = c then 0
  else
    mkRat 299 1000 * (absDiff (byteAt b 1) (byteAt c 1) : ℚ)
      + mkRat 587 1000 * (absDiff (byteAt b 2) (byteAt c 2) : ℚ)
      + mkRat 114 1000 * (absDiff (byteAt b 3) (byteAt c 3) : ℚ)

/-- Modelled from the spec: the brightness-difference formula as the spec
states it, `0.299*|dR| + 0.587*|dG| + 0.114*|dB|` over the red, green and
blue channels (bytes 0, 1 and 2 of the packed RGBA word) with the alpha
channel excluded.  Kept separate from `brightnessDiff`, which embeds what
the code actually computes, so the two can be compared. -/
def specLumaDiffRGB (b c : Nat) : ℚ :=
  if b = c then 0
  else
    mkRat 299 1000 * (absDiff (byteAt b 0) (byteAt c 0) : ℚ)
      + mkRat 587 1000 * (absDiff (byteAt b 1) (byteAt c 1) : ℚ)
      + mkRat 114 1000 * (absDiff (byteAt b 2) (byteAt c 2) : ℚ)

/-- JavaScript `t || d` on a number: falls back to `d` when `t` is absent or
NaN (modelled as `none`) and also when `t` is `0`, since `0` is falsy. -/
def jsNumberOr (t : Option ℚ) (d : ℚ) : ℚ :=
  match t with
  | none => d
  | some v => if v = 0 then d else v

/-- Source lines 81-82:
`255 * Math.min(1, Math.max(0, threshold || DEFAULT_THRESHOLD))`. -/
def effectiveThreshold (threshold : Option ℚ) : ℚ :=
  255 * min 1 (max 0 (jsNumberOr threshold DEFAULT_THRESHOLD))

/-- Source line 194 (and 234): `(v >> 3) & 0x001f1f1f`, the washed-out /
tint base of a packed pixel. -/
def bgrShift (v : Nat) : Nat := (v >>> 3) &&& 0x001f1f1f

/-- Ceiling division, `Math.ceil(a / b)` for nonnegative integers (the
degenerate `b = 0` case is never reached by the claims proved below, which
assume positive comparison dimensions). -/
def ceilDiv (a b : Nat) : Nat := (a + b - 1) / b

/-- The sidecar viewport record (spec section 3): the region of interest
inside a decoded image. -/
structure Viewport where
  x : Nat
  y : Nat
  width : Nat
  height : Nat
  scale : Nat

/-- A decoded image: dimensions plus pixel data as packed 32-bit RGBA words
(the `Uint32Array` view of the decoder's RGBA byte buffer). -/
structure Image where
  width : Nat
  height : Nat
  data : List Nat

/-- The mutable state threaded through the main diff loop: the triptych
canvas and low-resolution grid buffers, the two source row offsets, and the
`mismatchedPixels` / `diffHash` / `diffHashStartIndex` accumulators. -/
structure LoopState where
  canvas : List Nat
  lowRes : List Nat
  bOffset : Nat
  cOffset : Nat
  mismatched : ℤ
  diffHash : ℤ
  diffHashStart : ℤ

/-- Everything observable of one `diffImagesAsync` run: the returned record
`{mismatchedPixels, diffHash}` plus the diff canvas that would be encoded
into the output file and its dimensions. -/
structure DiffOutcome where
  mismatchedPixels : ℤ
  diffHash : ℤ
  canvas : List Nat
  canvasWidth : Nat
  canvasHeight : Nat

/-- Source lines 220-225 as one step of the hash state `(diffHash, start)`:
if `diffHash` is still 0 it is bumped by `DIFF_HASH_SPREAD` and `start` is
set to the current key, then `key - start` is added. -/
def hashStep (p : ℤ × ℤ) (key : ℤ) : ℤ × ℤ :=
  let q := if p.1 = 0 then (p.1 + DIFF_HASH_SPREAD, key) else p
  (q.1 + (key - q.2), q.2)

/-- Source line 242 models `indexLowRes`, started at
`Math.floor(y / lowResScale) * lowResWidth` and advanced by `1/lowResScale`
per pixel then truncated with `| 0`; in exact arithmetic that truncation is
`y / lowResScale * lowResWidth + x / lowResScale` on naturals. -/
def lowResIndexAt (lowResScale lowResWidth y x : Nat) : Nat :=
  y / lowResScale * lowResWidth + x / lowResScale

/-- Source lines 191-243: the per-pixel comparison body at column `x` of row
`y`.  Reads the two side panels of the canvas, classifies the pixel by
`brightnessDiff` against the threshold, and either writes the washed-out
baseline pixel to the centre panel, or counts a mismatch: highlight the
centre panel, bump the low-res grid cell, update the hash state, and on odd
`(x + y)` tint the side panels (skipping a side when the guarding pixel is
pure white). -/
def pixelStep (T : ℚ) (w lrs lrw y : Nat) (s : LoopState) (x : Nat) : LoopState :=
  let indexDiff32 := y * w * 3 + w + x
  let bABGR := listGet s.canvas (indexDiff32 - w)
  let cABGR := listGet s.canvas (indexDiff32 + w)
  let bBGRShifted := bgrShift bABGR
  let differenceBrightness := brightnessDiff bABGR cABGR
  if differenceBrightness < T then
    { s with canvas := s.canvas.set indexDiff32 (bBGRShifted ||| 0xffe0e0e0) }
  else
    let indexLowRes := lowResIndexAt lrs lrw y x
    let diffHashIndex : ℤ := (y : ℤ) * DIFF_HASH_SPREAD
    let hp := hashStep (s.diffHash, s.diffHashStart) diffHashIndex
    let s1 : LoopState :=
      { s with
        mismatched := s.mismatched + 1
        canvas := s.canvas.set indexDiff32 COLOR_HIGHLIGHT_ABGR
        lowRes := s.lowRes.set indexLowRes (min (listGet s.lowRes indexLowRes + 1) 255)
        diffHash := hp.1
        diffHashStart := hp.2 }
    if (x + y) % 2 = 1 then
      let s2 : LoopState :=
        if cABGR ≠ WHITE_ABGR then
          { s1 with canvas := s1.canvas.set (indexDiff32 - w) (bBGRShifted ||| 0xff6060e0) }
        else s1
      if bABGR ≠ WHITE_ABGR then
        { s2 with canvas := s2.canvas.set (indexDiff32 + w) (bgrShift cABGR ||| 0xff60e060) }
      else s2
    else s1

/-- Source lines 143-245: one iteration of the row loop.  Pre-fills the
centre panel when one image is missing, copies the baseline and candidate
rows into the side panels when their bound checks pass (advancing the
respective offsets), and runs the pixel comparison when both images are
present. -/
def rowStep (bImg cImg : Option Image) (missingOne : Bool) (T : ℚ)
    (w lrs lrw : Nat) (s : LoopState) (y : Nat) : LoopState :=
  let indexDiff32 := y * w * 3 + w
  let s0 : LoopState :=
    if missingOne then
      { s with canvas := listFill s.canvas COLOR_HIGHLIGHT_ABGR indexDiff32 (indexDiff32 + w) }
    else s
  let s1 : LoopState :=
    match bImg with
    | none => s0
    | some img =>
      if (s0.bOffset : ℤ) ≤ (img.data.length : ℤ) - (w : ℤ) then
        { s0 with
          canvas := listBlit s0.canvas (indexDiff32 - w) ((img.data.drop s0.bOffset).take w)
          bOffset := s0.bOffset + img.width }
      else s0
  let s2 : LoopState :=
    match cImg with
    | none => s1
    | some img =>
      if (s1.cOffset : ℤ) ≤ (img.data.length : ℤ) - (w : ℤ) then
        { s1 with
          canvas := listBlit s1.canvas (indexDiff32 + w) ((img.data.drop s1.cOffset).take w)
          cOffset := s1.cOffset + img.width }
      else s1
  if bImg.isSome ∧ cImg.isSome then
    (List.range w).foldl (pixelStep T w lrs lrw y) s2
  else s2

/-- Source lines 248-270: the low-resolution overlay pass over the canvas.
Every cell of the low-res grid that recorded a mismatch has the
non-highlighted pixels of its footprint in the centre panel tinted. -/
def overlayCanvas (w h lrs lrw lrh : Nat) (lowRes : List Nat)
    (canvas : List Nat) : List Nat :=
  (List.range lrh).foldl (fun canvas lrY =>
    let yStart := lrY * lrs
    let yEnd := min h (yStart + lrs)
    (List.range lrw).foldl (fun canvas lrX =>
      if 0 < listGet lowRes (lrX + lrY * lrw) then
        let xStart := lrX * lrs
        let xEnd := min w (xStart + lrs)
        (List.range' yStart (yEnd - yStart)).foldl (fun canvas y =>
          (List.range' xStart (xEnd - xStart)).foldl (fun canvas x =>
            let i := y * w * 3 + w + x
            let ABGR := listGet canvas i
            if ABGR ≠ COLOR_HIGHLIGHT_ABGR then
              canvas.set i ((ABGR &&& 0xff1f1f1f) ||| 0x60c0e0)
            else canvas) canvas) canvas
      else canvas) canvas) canvas

/-- Source lines 63-278, `diffImagesAsync` after image loading: each side is
`some (image, viewport)` when the image file exists and decoded, `none`
otherwise.  Returns `none` when neither image exists, otherwise the diff
outcome.  Follows the source statement by statement: comparison dimensions,
effective threshold, canvas and low-res grid allocation, the sentinel or 0
initialisation of `mismatchedPixels`, the row loop, and the low-resolution
overlay pass. -/
def diffImagesAsync (baseline candidate : Option (Image × Viewport))
    (threshold : Option ℚ) : Option DiffOutcome :=
  if baseline.isNone ∧ candidate.isNone then none
  else
    let T := effectiveThreshold threshold
    let w0 := match baseline with | some p => p.2.width | none => 0
    let h0 := match baseline with | some p => p.2.height | none => 0
    let w := match candidate with | some p => max w0 p.2.width | none => w0
    let h := match candidate with | some p => max h0 p.2.height | none => h0
    let bImg := baseline.map Prod.fst
    let cImg := candidate.map Prod.fst
    let imagesCount := (if baseline.isSome then 1 else 0) + (if candidate.isSome then 1 else 0)
    let missingOne := imagesCount == 1
    let lrs := ceilDiv (min w h) 8
    let lrw := ceilDiv w lrs
    let lrh := ceilDiv h lrs
    let init : LoopState :=
      { canvas := List.replicate (w * 3 * h) 0
        lowRes := List.replicate (lrw * lrh) 0
        bOffset := match baseline with | some p => p.2.x + p.2.y * p.1.width | none => 0
        cOffset := match candidate with | some p => p.2.x + p.2.y * p.1.width | none => 0
        mismatched :=
          if missingOne then
            if baseline.isNone then MISSING_BASELINE else MISSING_CANDIDATE
          else 0
        diffHash := 0
        diffHashStart := 0 }
    let s := (List.range h).foldl (rowStep bImg cImg missingOne T w lrs lrw) init
    let s :=
      if 0 < s.mismatched ∧ bImg.isSome ∧ cImg.isSome then
        { s with canvas := overlayCanvas w h lrs lrw lrh s.lowRes s.canvas }
      else s
    some
      { mismatchedPixels := s.mismatched
        diffHash := s.diffHash
        canvas := s.canvas
        canvasWidth := w * 3
        canvasHeight := h }

/-- Source lines 273-275: the diff file is written exactly when
`mismatchedPixels !== 0` (sentinels included). -/
def diffFileWritten (o : DiffOutcome) : Bool := o.mismatchedPixels != 0

/-!
Specification-level views of the row loop, used to characterise the run:
the word a given canvas side holds at each cell after the row copies, the
per-cell mismatch classification, and the closed forms of the mismatch count
and of the hash key sequence.
-/

/-- The value `baselineOffset32` (resp. `candidateOffset32`) holds when row
`y` is about to be processed: it starts at `viewport.x + viewport.y *
image.width` and advances by `image.width` exactly when a row's bound check
`offset <= data.length - width` passes. -/
def offsetAt (img : Image) (vp : Viewport) (w : Nat) : Nat → Nat
  | 0 => vp.x + vp.y * img.width
  | y + 1 =>
    let o := offsetAt img vp w y
    if (o : ℤ) ≤ (img.data.length : ℤ) - (w : ℤ) then o + img.width else o

/-- The packed word the comparison loop reads for one side at column `x` of
row `y`: the source word at `offsetAt y + x` when row `y`'s copy bound check
passed, and `0` (the zero-initialised canvas, i.e. transparent black) when
the row was never copied. -/
def srcRead (img : Image) (vp : Viewport) (w y x : Nat) : Nat :=
  if (offsetAt img vp w y : ℤ) ≤ (img.data.length : ℤ) - (w : ℤ) then
    listGet img.data (offsetAt img vp w y + x)
  else 0

/-- Mismatch classification of one pixel pair: the source counts a mismatch
exactly when `differenceBrightness < threshold` fails. -/
def isMismatch (T : ℚ) (b c : Nat) : Bool := decide (¬ brightnessDiff b c < T)

/-- Number of mismatched columns in row `y`. -/
def rowMismatchCount (T : ℚ) (bR cR : Nat → Nat → Nat) (w y : Nat) : Nat :=
  ((List.range w).filter fun x => isMismatch T (bR y x) (cR y x)).length

/-- Number of mismatched cells in rows `0 .. h-1`. -/
def mismatchCount (T : ℚ) (bR cR : Nat → Nat → Nat) (w : Nat) : Nat → Nat
  | 0 => 0
  | y + 1 => mismatchCount T bR cR w y + rowMismatchCount T bR cR w y

/-- The hash keys of the mismatched cells in scan order.  The source's
`diffHashIndex` is initialised to `y * DIFF_HASH_SPREAD` at the start of
each row and never changed inside the column loop, so every mismatch of row
`y` contributes the same key `y * DIFF_HASH_SPREAD`. -/
def mismatchKeys (T : ℚ) (bR cR : Nat → Nat → Nat) (w : Nat) : Nat → List ℤ
  | 0 => []
  | y + 1 =>
    mismatchKeys T bR cR w y
      ++ List.replicate (rowMismatchCount T bR cR w y) ((y : ℤ) * DIFF_HASH_SPREAD)

/-- Folding the source's hash update (lines 220-225) over a key sequence,
starting from `diffHash = 0`, `diffHashStartIndex = 0`. -/
def hashFold (ks : List ℤ) : ℤ × ℤ := ks.foldl hashStep (0, 0)

/-- The reference hash of spec section 4.4 on a key sequence: 0 when there
is no mismatch; otherwise the first key seeds the hash with
`DIFF_HASH_SPREAD` and is recorded as `start`, and every later key adds
`key - start`. -/
def specHashOfKeys : List ℤ → ℤ
  | [] => 0
  | k :: ks => DIFF_HASH_SPREAD + (ks.map fun a => a - k).sum

/-- Modelled from the spec (section 4.4 as claim C4 reads it): the key of a
mismatch is `y * SPREAD + x'` where `x'` is a per-row counter that advances
across the row — i.e. the key sequence carries the column positions of the
mismatches, not just their rows. -/
def specCounterKeys (T : ℚ) (bR cR : Nat → Nat → Nat) (w : Nat) : Nat → List ℤ
  | 0 => []
  | y + 1 =>
    specCounterKeys T bR cR w y
      ++ (((List.range w).filter fun x => isMismatch T (bR y x) (cR y x)).map
            fun x => (y : ℤ) * DIFF_HASH_SPREAD + (x : ℤ))

/-- Final value of the left (baseline) panel at a compared cell: tinted red
when the cell is a mismatch on the odd checkerboard half and the CANDIDATE
pixel is not pure white; otherwise the copied baseline word. -/
def leftFinalPix (T : ℚ) (y x b c : Nat) : Nat :=
  if isMismatch T b c ∧ (x + y) % 2 = 1 ∧ c ≠ WHITE_ABGR then
    bgrShift b ||| 0xff6060e0
  else b

/-- Final value of the right (candidate) panel at a compared cell: tinted
green when the cell is a mismatch on the odd checkerboard half and the
BASELINE pixel is not pure white; otherwise the copied candidate word. -/
def rightFinalPix (T : ℚ) (y x b c : Nat) : Nat :=
  if isMismatch T b c ∧ (x + y) % 2 = 1 ∧ b ≠ WHITE_ABGR then
    bgrShift c ||| 0xff60e060
  else c

/-- Comparison width when both images are present: the componentwise maximum
of the two viewport widths (source lines 98 and 112). -/
def diffWidth (bVp cVp : Viewport) : Nat := max bVp.width cVp.width

/-- Comparison height when both images are present (source lines 99 and 113). -/
def diffHeight (bVp cVp : Viewport) : Nat := max bVp.height cVp.height

/-- Closed form of the number of mismatched cells of a both-present run:
cells of the `diffWidth x diffHeight` union bounds whose two `srcRead`
words (copied data, or zero where the row copy bound check failed) are
classified as mismatched. -/
def bothMismatchCount (bImg cImg : Image) (bVp cVp : Viewport) (t : Option ℚ) : Nat :=
  mismatchCount (effectiveThreshold t)
    (srcRead bImg bVp (diffWidth bVp cVp)) (srcRead cImg cVp (diffWidth bVp cVp))
    (diffWidth bVp cVp) (diffHeight bVp cVp)

/-- Closed form of the hash-key sequence of a both-present run. -/
def bothMismatchKeys (bImg cImg : Image) (bVp cVp : Viewport) (t : Option ℚ) : List ℤ :=
  mismatchKeys (effectiveThreshold t)
    (srcRead bImg bVp (diffWidth bVp cVp)) (srcRead cImg cVp (diffWidth bVp cVp))
    (diffWidth bVp cVp) (diffHeight bVp cVp)

/-- The loop state at the end of the row loop of a both-present run, written
out explicitly (the same fold `diffImagesAsync` performs). -/
def diffBothState (bImg cImg : Image) (bVp cVp : Viewport) (t : Option ℚ) : LoopState :=
  let W := diffWidth bVp cVp
  let H := diffHeight bVp cVp
  let lrs := ceilDiv (min W H) 8
  let lrw := ceilDiv W lrs
  let lrh := ceilDiv H lrs
  (List.range H).foldl
    (rowStep (some bImg) (some cImg) false (effectiveThreshold t) W lrs lrw)
    { canvas := List.replicate (W * 3 * H) 0
      lowRes := List.replicate (lrw * lrh) 0
      bOffset := bVp.x + bVp.y * bImg.width
      cOffset := cVp.x + cVp.y * cImg.width
      mismatched := 0
      diffHash := 0
      diffHashStart := 0 }

/-- The outcome of a both-present run, written out explicitly. -/
def diffBothOutcome (bImg cImg : Image) (bVp cVp : Viewport) (t : Option ℚ) : DiffOutcome :=
  let W := diffWidth bVp cVp
  let H := diffHeight bVp cVp
  let lrs := ceilDiv (min W H) 8
  let lrw := ceilDiv W lrs
  let lrh := ceilDiv H lrs
  let s := diffBothState bImg cImg bVp cVp t
  let s2 :=
    if 0 < s.mismatched ∧ (some bImg).isSome ∧ (some cImg).isSome then
      { s with canvas := overlayCanvas W H lrs lrw lrh s.lowRes s.canvas }
    else s
  { mismatchedPixels := s2.mismatched
    diffHash := s2.diffHash
    canvas := s2.canvas
    canvasWidth := W * 3
    canvasHeight := H }

/-- The loop state at the end of the row loop when only the baseline image
exists, written out explicitly. -/
def diffOnlyBaselineState (img : Image) (vp : Viewport) (t : Option ℚ) : LoopState :=
  let W := vp.width
  let H := vp.height
  let lrs := ceilDiv (min W H) 8
  let lrw := ceilDiv W lrs
  let lrh := ceilDiv H lrs
  (List.range H).foldl
    (rowStep (some img) none true (effectiveThreshold t) W lrs lrw)
    { canvas := List.replicate (W * 3 * H) 0
      lowRes := List.replicate (lrw * lrh) 0
      bOffset := vp.x + vp.y * img.width
      cOffset := 0
      mismatched := MISSING_CANDIDATE
      diffHash := 0
      diffHashStart := 0 }

/-- The outcome when only the baseline image exists, written out
explicitly. -/
def diffOnlyBaselineOutcome (img : Image) (vp : Viewport) (t : Option ℚ) : DiffOutcome :=
  let W := vp.width
  let H := vp.height
  let lrs := ceilDiv (min W H) 8
  let lrw := ceilDiv W lrs
  let lrh := ceilDiv H lrs
  let s := diffOnlyBaselineState img vp t
  let s2 :=
    if 0 < s.mismatched ∧ (some img).isSome ∧ (none : Option Image).isSome then
      { s with canvas := overlayCanvas W H lrs lrw lrh s.lowRes s.canvas }
    else s
  { mismatchedPixels := s2.mismatched
    diffHash := s2.diffHash
    canvas := s2.canvas
    canvasWidth := W * 3
    canvasHeight := H }

/-- The loop state at the end of the row loop when only the candidate image
exists, written out explicitly. -/
def diffOnlyCandidateState (img : Image) (vp : Viewport) (t : Option ℚ) : LoopState :=
  let W := max 0 vp.width
  let H := max 0 vp.height
  let lrs := ceilDiv (min W H) 8
  let lrw := ceilDiv W lrs
  let lrh := ceilDiv H lrs
  (List.range H).foldl
    (rowStep none (some img) true (effectiveThreshold t) W lrs lrw)
    { canvas := List.replicate (W * 3 * H) 0
      lowRes := List.replicate (lrw * lrh) 0
      bOffset := 0
      cOffset := vp.x + vp.y * img.width
      mismatched := MISSING_BASELINE
      diffHash := 0
      diffHashStart := 0 }

/-- The outcome when only the candidate image exists, written out
explicitly. -/
def diffOnlyCandidateOutcome (img : Image) (vp : Viewport) (t : Option ℚ) : DiffOutcome :=
  let W := max 0 vp.width
  let H := max 0 vp.height
  let lrs := ceilDiv (min W H) 8
  let lrw := ceilDiv W lrs
  let lrh := ceilDiv H lrs
  let s := diffOnlyCandidateState img vp t
  let s2 :=
    if 0 < s.mismatched ∧ (none : Option Image).isSome ∧ (some img).isSome then
      { s with canvas := overlayCanvas W H lrs lrw lrh s.lowRes s.canvas }
    else s
  { mismatchedPixels := s2.mismatched
    diffHash := s2.diffHash
    canvas := s2.canvas
    canvasWidth := W * 3
    canvasHeight := H }

/-!
List access lemmas for the canvas model.
-/

theorem listGet_set_self : ∀ (l : List Nat) (i v : Nat), i < l.length →
    listGet (l.set i v) i = v
  | [], i, v, h => absurd h (by simp)
  | a :: t, 0, v, _ => rfl
  | a :: t, i + 1, v, h =>
    listGet_set_self t i v (Nat.lt_of_succ_lt_succ (by simpa using h))

theorem listGet_set_ne : ∀ (l : List Nat) (i j v : Nat), i ≠ j →
    listGet (l.set i v) j = listGet l j
  | [], _, _, _, _ => rfl
  | a :: t, 0, 0, v, h => absurd rfl h
  | a :: t, 0, j + 1, v, _ => rfl
  | a :: t, i + 1, 0, v, _ => rfl
  | a :: t, i + 1, j + 1, v, h =>
    listGet_set_ne t i j v (fun hij => h (by rw [hij]))

theorem listGet_replicate (n i : Nat) : listGet (List.replicate n 0) i = 0 := by
  induction n generalizing i with
  | zero => rfl
  | succ n ih =>
    cases i with
    | zero => rfl
    | succ i => simp only [List.replicate]; exact ih i

theorem listBlit_length : ∀ (src l : List Nat) (i : Nat),
    (listBlit l i src).length = l.length
  | [], _, _ => rfl
  | v :: vs, l, i => by
    rw [listBlit, listBlit_length vs, List.length_set]

theorem listGet_blit_out : ∀ (src l : List Nat) (i j : Nat),
    (j < i ∨ i + src.length ≤ j) →
    listGet (listBlit l i src) j = listGet l j
  | [], _, _, _, _ => rfl
  | v :: vs, l, i, j, h => by
    rw [listBlit, listGet_blit_out vs _ _ _ (by simp at h; omega),
      listGet_set_ne _ _ _ _ (by simp at h; omega)]

theorem listGet_blit_in : ∀ (src l : List Nat) (i k : Nat), k < src.length →
    i + src.length ≤ l.length →
    listGet (listBlit l i src) (i + k) = listGet src k
  | [], _, _, k, hk, _ => absurd hk (by simp)
  | v :: vs, l, i, 0, _, hl => by
    rw [listBlit]
    have h1 := listGet_blit_out vs (l.set i v) (i + 1) i (Or.inl (by omega))
    have h2 := listGet_set_self l i v (by simp at hl; omega)
    simp only [Nat.add_zero, h1, h2]
    rfl
  | v :: vs, l, i, k + 1, hk, hl => by
    rw [listBlit]
    have h3 : i + (k + 1) = (i + 1) + k := by omega
    have h1 := listGet_blit_in vs (l.set i v) (i + 1) k (by simp at hk; omega)
      (by rw [List.length_set]; simp at hl; omega)
    rw [h3, h1]
    rfl

/-- Branch equation for `pixelStep`: the below-threshold (match) case only
writes the washed-out baseline pixel to the centre panel. -/
theorem pixelStep_eq_match (T : ℚ) (w lrs lrw y x : Nat) (s : LoopState) (b c : Nat)
    (hb : listGet s.canvas (y * w * 3 + x) = b)
    (hc : listGet s.canvas (y * w * 3 + 2 * w + x) = c)
    (e1 : y * w * 3 + w + x - w = y * w * 3 + x)
    (e2 : y * w * 3 + w + x + w = y * w * 3 + 2 * w + x)
    (hlt : brightnessDiff b c < T) :
    pixelStep T w lrs lrw y s x
      = { s with canvas := s.canvas.set (y * w * 3 + w + x) (bgrShift b ||| 0xffe0e0e0) } := by
  simp only [pixelStep, e1, e2, hb, hc]
  rw [if_pos hlt]

/-- Branch equation for `pixelStep`: a mismatch at an even checkerboard cell
highlights the centre panel, bumps the low-res cell and updates the hash,
with no side-panel tint. -/
theorem pixelStep_eq_even (T : ℚ) (w lrs lrw y x : Nat) (s : LoopState) (b c : Nat)
    (hb : listGet s.canvas (y * w * 3 + x) = b)
    (hc : listGet s.canvas (y * w * 3 + 2 * w + x) = c)
    (e1 : y * w * 3 + w + x - w = y * w * 3 + x)
    (e2 : y * w * 3 + w + x + w = y * w * 3 + 2 * w + x)
    (hlt : ¬ brightnessDiff b c < T) (hpar : ¬ (x + y) % 2 = 1) :
    pixelStep T w lrs lrw y s x
      = { s with
          canvas := s.canvas.set (y * w * 3 + w + x) COLOR_HIGHLIGHT_ABGR
          lowRes := s.lowRes.set (lowResIndexAt lrs lrw y x)
            (min (listGet s.lowRes (lowResIndexAt lrs lrw y x) + 1) 255)
          mismatched := s.mismatched + 1
          diffHash := (hashStep (s.diffHash, s.diffHashStart) ((y : ℤ) * DIFF_HASH_SPREAD)).1
          diffHashStart :=
            (hashStep (s.diffHash, s.diffHashStart) ((y : ℤ) * DIFF_HASH_SPREAD)).2 } := by
  simp only [pixelStep, e1, e2, hb, hc]
  rw [if_neg hlt, if_neg hpar]

/-- Branch equation for `pixelStep`: a mismatch at an odd cell where both
pixels are pure white gets no side tint either. -/
theorem pixelStep_eq_whiteBoth (T : ℚ) (w lrs lrw y x : Nat) (s : LoopState) (b c : Nat)
    (hb : listGet s.canvas (y * w * 3 + x) = b)
    (hc : listGet s.canvas (y * w * 3 + 2 * w + x) = c)
    (e1 : y * w * 3 + w + x - w = y * w * 3 + x)
    (e2 : y * w * 3 + w + x + w = y * w * 3 + 2 * w + x)
    (hlt : ¬ brightnessDiff b c < T) (hpar : (x + y) % 2 = 1)
    (hcw : c = WHITE_ABGR) (hbw : b = WHITE_ABGR) :
    pixelStep T w lrs lrw y s x
      = { s with
          canvas := s.canvas.set (y * w * 3 + w + x) COLOR_HIGHLIGHT_ABGR
          lowRes := s.lowRes.set (lowResIndexAt lrs lrw y x)
            (min (listGet s.lowRes (lowResIndexAt lrs lrw y x) + 1) 255)
          mismatched := s.mismatched + 1
          diffHash := (hashStep (s.diffHash, s.diffHashStart) ((y : ℤ) * DIFF_HASH_SPREAD)).1
          diffHashStart :=
            (hashStep (s.diffHash, s.diffHashStart) ((y : ℤ) * DIFF_HASH_SPREAD)).2 } := by
  simp only [pixelStep, e1, e2, hb, hc]
  rw [if_neg hlt, if_pos hpar, if_neg (not_not_intro hcw), if_neg (not_not_intro hbw)]

/-- Branch equation for `pixelStep`: odd cell, candidate pure white but
baseline not: only the green tint of the right (candidate) panel. -/
theorem pixelStep_eq_greenOnly (T : ℚ) (w lrs lrw y x : Nat) (s : LoopState) (b c : Nat)
    (hb : listGet s.canvas (y * w * 3 + x) = b)
    (hc : listGet s.canvas (y * w * 3 + 2 * w + x) = c)
    (e1 : y * w * 3 + w + x - w = y * w * 3 + x)
    (e2 : y * w * 3 + w + x + w = y * w * 3 + 2 * w + x)
    (hlt : ¬ brightnessDiff b c < T) (hpar : (x + y) % 2 = 1)
    (hcw : c = WHITE_ABGR) (hbw : ¬ b = WHITE_ABGR) :
    pixelStep T w lrs lrw y s x
      = { s with
          canvas := (s.canvas.set (y * w * 3 + w + x) COLOR_HIGHLIGHT_ABGR).set
            (y * w * 3 + 2 * w + x) (bgrShift c ||| 0xff60e060)
          lowRes := s.lowRes.set (lowResIndexAt lrs lrw y x)
            (min (listGet s.lowRes (lowResIndexAt lrs lrw y x) + 1) 255)
          mismatched := s.mismatched + 1
          diffHash := (hashStep (s.diffHash, s.diffHashStart) ((y : ℤ) * DIFF_HASH_SPREAD)).1
          diffHashStart :=
            (hashStep (s.diffHash, s.diffHashStart) ((y : ℤ) * DIFF_HASH_SPREAD)).2 } := by
  simp only [pixelStep, e1, e2, hb, hc]
  rw [if_neg hlt, if_pos hpar, if_neg (not_not_intro hcw), if_pos hbw]

/-- Branch equation for `pixelStep`: odd cell, baseline pure white but
candidate not: only the red tint of the left (baseline) panel. -/
theorem pixelStep_eq_redOnly (T : ℚ) (w lrs lrw y x : Nat) (s : LoopState) (b c : Nat)
    (hb : listGet s.canvas (y * w * 3 + x) = b)
    (hc : listGet s.canvas (y * w * 3 + 2 * w + x) = c)
    (e1 : y * w * 3 + w + x - w = y * w * 3 + x)
    (e2 : y * w * 3 + w + x + w = y * w * 3 + 2 * w + x)
    (hlt : ¬ brightnessDiff b c < T) (hpar : (x + y) % 2 = 1)
    (hcw : ¬ c = WHITE_ABGR) (hbw : b = WHITE_ABGR) :
    pixelStep T w lrs lrw y s x
      = { s with
          canvas := (s.canvas.set (y * w * 3 + w + x) COLOR_HIGHLIGHT_ABGR).set
            (y * w * 3 + x) (bgrShift b ||| 0xff6060e0)
          lowRes := s.lowRes.set (lowResIndexAt lrs lrw y x)
            (min (listGet s.lowRes (lowResIndexAt lrs lrw y x) + 1) 255)
          mismatched := s.mismatched + 1
          diffHash := (hashStep (s.diffHash, s.diffHashStart) ((y : ℤ) * DIFF_HASH_SPREAD)).1
          diffHashStart :=
            (hashStep (s.diffHash, s.diffHashStart) ((y : ℤ) * DIFF_HASH_SPREAD)).2 } := by
  simp only [pixelStep, e1, e2, hb, hc]
  rw [if_neg hlt, if_pos hpar, if_pos hcw, if_neg (not_not_intro hbw)]

/-- Branch equation for `pixelStep`: odd cell with neither pixel pure white:
red tint on the left (baseline) panel and green tint on the right
(candidate) panel. -/
theorem pixelStep_eq_both (T : ℚ) (w lrs lrw y x : Nat) (s : LoopState) (b c : Nat)
    (hb : listGet s.canvas (y * w * 3 + x) = b)
    (hc : listGet s.canvas (y * w * 3 + 2 * w + x) = c)
    (e1 : y * w * 3 + w + x - w = y * w * 3 + x)
    (e2 : y * w * 3 + w + x + w = y * w * 3 + 2 * w + x)
    (hlt : ¬ brightnessDiff b c < T) (hpar : (x + y) % 2 = 1)
    (hcw : ¬ c = WHITE_ABGR) (hbw : ¬ b = WHITE_ABGR) :
    pixelStep T w lrs lrw y s x
      = { s with
          canvas := ((s.canvas.set (y * w * 3 + w + x) COLOR_HIGHLIGHT_ABGR).set
              (y * w * 3 + x) (bgrShift b ||| 0xff6060e0)).set
              (y * w * 3 + 2 * w + x) (bgrShift c ||| 0xff60e060)
          lowRes := s.lowRes.set (lowResIndexAt lrs lrw y x)
            (min (listGet s.lowRes (lowResIndexAt lrs lrw y x) + 1) 255)
          mismatched := s.mismatched + 1
          diffHash := (hashStep (s.diffHash, s.diffHashStart) ((y : ℤ) * DIFF_HASH_SPREAD)).1
          diffHashStart :=
            (hashStep (s.diffHash, s.diffHashStart) ((y : ℤ) * DIFF_HASH_SPREAD)).2 } := by
  simp only [pixelStep, e1, e2, hb, hc]
  rw [if_neg hlt, if_pos hpar, if_pos hcw, if_pos hbw]

/-- Full characterisation of one `pixelStep`: offsets unchanged, canvas
length unchanged, mismatch counter and hash state advanced according to the
classification of the cell, all canvas entries outside the cell's three
panel positions unchanged, and the two side-panel entries of the cell left
at their final values `leftFinalPix` / `rightFinalPix`. -/
theorem pixelStep_char (T : ℚ) (w lrs lrw y x : Nat) (s : LoopState) (b c : Nat)
    (hx : x < w) (hlen : y * w * 3 + 3 * w ≤ s.canvas.length)
    (hb : listGet s.canvas (y * w * 3 + x) = b)
    (hc : listGet s.canvas (y * w * 3 + 2 * w + x) = c) :
    (pixelStep T w lrs lrw y s x).bOffset = s.bOffset ∧
    (pixelStep T w lrs lrw y s x).cOffset = s.cOffset ∧
    (pixelStep T w lrs lrw y s x).canvas.length = s.canvas.length ∧
    (pixelStep T w lrs lrw y s x).mismatched
      = s.mismatched + (if isMismatch T b c then 1 else 0) ∧
    ((pixelStep T w lrs lrw y s x).diffHash, (pixelStep T w lrs lrw y s x).diffHashStart)
      = (if isMismatch T b c then
            hashStep (s.diffHash, s.diffHashStart) ((y : ℤ) * DIFF_HASH_SPREAD)
         else (s.diffHash, s.diffHashStart)) ∧
    (∀ i, i ≠ y * w * 3 + x → i ≠ y * w * 3 + w + x → i ≠ y * w * 3 + 2 * w + x →
      listGet (pixelStep T w lrs lrw y s x).canvas i = listGet s.canvas i) ∧
    listGet (pixelStep T w lrs lrw y s x).canvas (y * w * 3 + x) = leftFinalPix T y x b c ∧
    listGet (pixelStep T w lrs lrw y s x).canvas (y * w * 3 + 2 * w + x)
      = rightFinalPix T y x b c := by
  have hw : 0 < w := Nat.lt_of_le_of_lt (Nat.zero_le x) hx
  have e1 : y * w * 3 + w + x - w = y * w * 3 + x := by omega
  have e2 : y * w * 3 + w + x + w = y * w * 3 + 2 * w + x := by omega
  have nLC : y * w * 3 + x ≠ y * w * 3 + w + x := by omega
  have nLR : y * w * 3 + x ≠ y * w * 3 + 2 * w + x := by omega
  have nCR : y * w * 3 + w + x ≠ y * w * 3 + 2 * w + x := by omega
  by_cases hlt : brightnessDiff b c < T
  · have hm : isMismatch T b c = false := by simp [isMismatch, hlt]
    rw [pixelStep_eq_match T w lrs lrw y x s b c hb hc e1 e2 hlt]
    refine ⟨rfl, rfl, by simp, by simp [hm], by simp [hm], ?_, ?_, ?_⟩
    · intro i h1 h2 h3
      exact listGet_set_ne _ _ _ _ (fun he => h2 he.symm)
    · show listGet _ (y * w * 3 + x) = _
      rw [listGet_set_ne _ _ _ _ (fun he => nLC he.symm), hb, leftFinalPix]
      simp [hm]
    · show listGet _ (y * w * 3 + 2 * w + x) = _
      rw [listGet_set_ne _ _ _ _ nCR, hc, rightFinalPix]
      simp [hm]
  · have hm : isMismatch T b c = true := by simp [isMismatch, hlt]
    by_cases hpar : (x + y) % 2 = 1
    · by_cases hcw : c = WHITE_ABGR
      · by_cases hbw : b = WHITE_ABGR
        · rw [pixelStep_eq_whiteBoth T w lrs lrw y x s b c hb hc e1 e2 hlt hpar hcw hbw]
          refine ⟨rfl, rfl, by simp, by simp [hm], by simp [hm], ?_, ?_, ?_⟩
          · intro i h1 h2 h3
            exact listGet_set_ne _ _ _ _ (fun he => h2 he.symm)
          · show listGet _ (y * w * 3 + x) = _
            rw [listGet_set_ne _ _ _ _ (fun he => nLC he.symm), hb, leftFinalPix]
            simp [hcw]
          · show listGet _ (y * w * 3 + 2 * w + x) = _
            rw [listGet_set_ne _ _ _ _ nCR, hc, rightFinalPix]
            simp [hbw]
        · rw [pixelStep_eq_greenOnly T w lrs lrw y x s b c hb hc e1 e2 hlt hpar hcw hbw]
          refine ⟨rfl, rfl, by simp, by simp [hm], by simp [hm], ?_, ?_, ?_⟩
          · intro i h1 h2 h3
            rw [listGet_set_ne _ _ _ _ (fun he => h3 he.symm)]
            exact listGet_set_ne _ _ _ _ (fun he => h2 he.symm)
          · show listGet _ (y * w * 3 + x) = _
            rw [listGet_set_ne _ _ _ _ nLR.symm,
              listGet_set_ne _ _ _ _ (fun he => nLC he.symm), hb, leftFinalPix]
            simp [hcw]
          · show listGet _ (y * w * 3 + 2 * w + x) = _
            rw [listGet_set_self _ _ _ (by simp; omega), rightFinalPix]
            simp [hm, hpar, hbw]
      · by_cases hbw : b = WHITE_ABGR
        · rw [pixelStep_eq_redOnly T w lrs lrw y x s b c hb hc e1 e2 hlt hpar hcw hbw]
          refine ⟨rfl, rfl, by simp, by simp [hm], by simp [hm], ?_, ?_, ?_⟩
          · intro i h1 h2 h3
            rw [listGet_set_ne _ _ _ _ (fun he => h1 he.symm)]
            exact listGet_set_ne _ _ _ _ (fun he => h2 he.symm)
          · show listGet _ (y * w * 3 + x) = _
            rw [listGet_set_self _ _ _ (by simp; omega), leftFinalPix]
            simp [hm, hpar, hcw]
          · show listGet _ (y * w * 3 + 2 * w + x) = _
            rw [listGet_set_ne _ _ _ _ nLR, listGet_set_ne _ _ _ _ nCR, hc, rightFinalPix]
            simp [hbw]
        · rw [pixelStep_eq_both T w lrs lrw y x s b c hb hc e1 e2 hlt hpar hcw hbw]
          refine ⟨rfl, rfl, by simp, by simp [hm], by simp [hm], ?_, ?_, ?_⟩
          · intro i h1 h2 h3
            rw [listGet_set_ne _ _ _ _ (fun he => h3 he.symm),
              listGet_set_ne _ _ _ _ (fun he => h1 he.symm)]
            exact listGet_set_ne _ _ _ _ (fun he => h2 he.symm)
          · show listGet _ (y * w * 3 + x) = _
            rw [listGet_set_ne _ _ _ _ nLR.symm,
              listGet_set_self _ _ _ (by simp; omega), leftFinalPix]
            simp [hm, hpar, hcw]
          · show listGet _ (y * w * 3 + 2 * w + x) = _
            rw [listGet_set_self _ _ _ (by simp; omega), rightFinalPix]
            simp [hm, hpar, hbw]
    · rw [pixelStep_eq_even T w lrs lrw y x s b c hb hc e1 e2 hlt hpar]
      refine ⟨rfl, rfl, by simp, by simp [hm], by simp [hm], ?_, ?_, ?_⟩
      · intro i h1 h2 h3
        exact listGet_set_ne _ _ _ _ (fun he => h2 he.symm)
      · show listGet _ (y * w * 3 + x) = _
        rw [listGet_set_ne _ _ _ _ (fun he => nLC he.symm), hb, leftFinalPix]
        simp [hpar]
      · show listGet _ (y * w * 3 + 2 * w + x) = _
        rw [listGet_set_ne _ _ _ _ nCR, hc, rightFinalPix]
        simp [hpar]

/-- Characterisation of the inner column loop of a row, processing columns
`[j, j+n)` with `j + n = w`: offsets are unchanged, the mismatch counter
grows by the number of mismatched columns, the hash state is folded once per
mismatch with the row's constant key `y * DIFF_HASH_SPREAD`, canvas entries
outside the row's three panels (and side-panel entries of columns `< j`) are
unchanged, and side-panel entries of the processed columns hold
`leftFinalPix` / `rightFinalPix` of the words that were on the panels when
the loop started. -/
theorem compareRow_char (T : ℚ) (w lrs lrw y : Nat) (bR cR : Nat → Nat → Nat) :
    ∀ (n j : Nat) (s0 : LoopState), j + n = w →
    y * w * 3 + 3 * w ≤ s0.canvas.length →
    (∀ x, j ≤ x → x < w → listGet s0.canvas (y * w * 3 + x) = bR y x) →
    (∀ x, j ≤ x → x < w → listGet s0.canvas (y * w * 3 + 2 * w + x) = cR y x) →
    ((List.range' j n).foldl (pixelStep T w lrs lrw y) s0).bOffset = s0.bOffset ∧
    ((List.range' j n).foldl (pixelStep T w lrs lrw y) s0).cOffset = s0.cOffset ∧
    ((List.range' j n).foldl (pixelStep T w lrs lrw y) s0).canvas.length = s0.canvas.length ∧
    ((List.range' j n).foldl (pixelStep T w lrs lrw y) s0).mismatched
      = s0.mismatched
        + (((List.range' j n).filter fun x => isMismatch T (bR y x) (cR y x)).length : ℤ) ∧
    (((List.range' j n).foldl (pixelStep T w lrs lrw y) s0).diffHash,
      ((List.range' j n).foldl (pixelStep T w lrs lrw y) s0).diffHashStart)
      = (List.replicate ((List.range' j n).filter fun x => isMismatch T (bR y x) (cR y x)).length
          ((y : ℤ) * DIFF_HASH_SPREAD)).foldl hashStep (s0.diffHash, s0.diffHashStart) ∧
    (∀ i, i < y * w * 3 →
      listGet ((List.range' j n).foldl (pixelStep T w lrs lrw y) s0).canvas i
        = listGet s0.canvas i) ∧
    (∀ i, y * w * 3 + 3 * w ≤ i →
      listGet ((List.range' j n).foldl (pixelStep T w lrs lrw y) s0).canvas i
        = listGet s0.canvas i) ∧
    (∀ x, x < j →
      listGet ((List.range' j n).foldl (pixelStep T w lrs lrw y) s0).canvas (y * w * 3 + x)
        = listGet s0.canvas (y * w * 3 + x)) ∧
    (∀ x, x < j →
      listGet ((List.range' j n).foldl (pixelStep T w lrs lrw y) s0).canvas
          (y * w * 3 + 2 * w + x)
        = listGet s0.canvas (y * w * 3 + 2 * w + x)) ∧
    (∀ x, j ≤ x → x < w →
      listGet ((List.range' j n).foldl (pixelStep T w lrs lrw y) s0).canvas (y * w * 3 + x)
        = leftFinalPix T y x (bR y x) (cR y x)) ∧
    (∀ x, j ≤ x → x < w →
      listGet ((List.range' j n).foldl (pixelStep T w lrs lrw y) s0).canvas
          (y * w * 3 + 2 * w + x)
        = rightFinalPix T y x (bR y x) (cR y x)) := by
  intro n
  induction n with
  | zero =>
    intro j s0 hjw hlen hbR hcR
    refine ⟨rfl, rfl, rfl, by simp, by simp, fun i _ => rfl, fun i _ => rfl,
      fun x _ => rfl, fun x _ => rfl, fun x hjx hxw => ?_, fun x hjx hxw => ?_⟩
    all_goals omega
  | succ n ih =>
    intro j s0 hjw hlen hbR hcR
    have hjltw : j < w := by omega
    rw [List.range'_succ, List.foldl_cons]
    obtain ⟨p1, p2, p3, p4, p5, p6, p7, p8⟩ :=
      pixelStep_char T w lrs lrw y j s0 (bR y j) (cR y j) hjltw hlen
        (hbR j (Nat.le_refl j) hjltw) (hcR j (Nat.le_refl j) hjltw)
    have hlen1 : y * w * 3 + 3 * w ≤ (pixelStep T w lrs lrw y s0 j).canvas.length := by
      rw [p3]; exact hlen
    have hread1 : ∀ x, j + 1 ≤ x → x < w →
        listGet (pixelStep T w lrs lrw y s0 j).canvas (y * w * 3 + x) = bR y x := by
      intro x h1 h2
      rw [p6 _ (by omega) (by omega) (by omega)]
      exact hbR x (by omega) h2
    have hread2 : ∀ x, j + 1 ≤ x → x < w →
        listGet (pixelStep T w lrs lrw y s0 j).canvas (y * w * 3 + 2 * w + x) = cR y x := by
      intro x h1 h2
      rw [p6 _ (by omega) (by omega) (by omega)]
      exact hcR x (by omega) h2
    obtain ⟨q1, q2, q3, q4, q5, q6, q7, q8, q9, q10, q11⟩ :=
      ih (j + 1) (pixelStep T w lrs lrw y s0 j) (by omega) hlen1 hread1 hread2
    have hkey : ∀ l : List Nat,
        (l.filter fun x => isMismatch T (bR y x) (cR y x)).length
          = (l.filter fun x => isMismatch T (bR y x) (cR y x)).length := fun _ => rfl
    refine ⟨q1.trans p1, q2.trans p2, q3.trans p3, ?_, ?_, ?_, ?_, ?_, ?_, ?_, ?_⟩
    · rw [q4, p4, List.filter_cons]
      by_cases hmj : isMismatch T (bR y j) (cR y j)
      · simp only [hmj, if_pos, List.length_cons]
        push_cast
        ring
      · simp only [hmj, Bool.false_eq_true, if_neg, not_false_iff]
        simp [hmj]
    · rw [q5, List.filter_cons]
      by_cases hmj : isMismatch T (bR y j) (cR y j)
      · simp only [hmj, if_pos, List.length_cons, List.replicate_succ, List.foldl_cons]
        rw [show ((pixelStep T w lrs lrw y s0 j).diffHash,
            (pixelStep T w lrs lrw y s0 j).diffHashStart)
            = hashStep (s0.diffHash, s0.diffHashStart) ((y : ℤ) * DIFF_HASH_SPREAD) from by
          rw [p5]; simp [hmj]]
      · simp only [hmj, Bool.false_eq_true, if_neg, not_false_iff]
        rw [show ((pixelStep T w lrs lrw y s0 j).diffHash,
            (pixelStep T w lrs lrw y s0 j).diffHashStart)
            = (s0.diffHash, s0.diffHashStart) from by rw [p5]; simp [hmj]]
    · intro i hi
      rw [q6 i hi, p6 i (by omega) (by omega) (by omega)]
    · intro i hi
      rw [q7 i hi, p6 i (by omega) (by omega) (by omega)]
    · intro x hx
      rw [q8 x (by omega), p6 _ (by omega) (by omega) (by omega)]
    · intro x hx
      rw [q9 x (by omega), p6 _ (by omega) (by omega) (by omega)]
    · intro x hjx hxw
      by_cases hxj : x = j
      · subst hxj
        rw [q8 x (by omega), p7]
      · exact q10 x (by omega) hxw
    · intro x hjx hxw
      by_cases hxj : x = j
      · subst hxj
        rw [q9 x (by omega), p8]
      · exact q11 x (by omega) hxw

theorem rowBound (w y h : Nat) (hy : y < h) : y * w * 3 + 3 * w ≤ w * 3 * h := by
  have h1 : (y + 1) * (w * 3) ≤ h * (w * 3) := Nat.mul_le_mul_right (w * 3) hy
  have e1 : (y + 1) * (w * 3) = y * w * 3 + 3 * w := by ring
  have e2 : h * (w * 3) = w * 3 * h := by ring
  omega

theorem listGet_drop_take (l : List Nat) (o k x : Nat) (hx : x < k)
    (_hk : o + k ≤ l.length) :
    listGet ((l.drop o).take k) x = listGet l (o + x) := by
  simp only [listGet, List.getD_eq_getElem?_getD]
  rw [List.getElem?_take_of_lt hx, List.getElem?_drop]

/-- Characterisation of one full row iteration when both images are present
(`missingOne = false`): the canvas length is preserved, the offsets advance
according to the bound checks (`offsetAt`), the counters advance by the
row's mismatches computed on what `srcRead` says the panels hold, rows above
are untouched, rows below remain zero, and the row's side panels end at
their final values. -/
theorem rowStep_char_both (bImg cImg : Image) (bVp cVp : Viewport) (T : ℚ)
    (w h lrs lrw y : Nat) (hy : y < h) (s : LoopState)
    (hlen : s.canvas.length = w * 3 * h)
    (hzero : ∀ i, y * w * 3 ≤ i → listGet s.canvas i = 0)
    (hbOff : s.bOffset = offsetAt bImg bVp w y)
    (hcOff : s.cOffset = offsetAt cImg cVp w y) :
    (rowStep (some bImg) (some cImg) false T w lrs lrw s y).canvas.length = w * 3 * h ∧
    (rowStep (some bImg) (some cImg) false T w lrs lrw s y).bOffset
      = offsetAt bImg bVp w (y + 1) ∧
    (rowStep (some bImg) (some cImg) false T w lrs lrw s y).cOffset
      = offsetAt cImg cVp w (y + 1) ∧
    (rowStep (some bImg) (some cImg) false T w lrs lrw s y).mismatched
      = s.mismatched
        + (rowMismatchCount T (srcRead bImg bVp w) (srcRead cImg cVp w) w y : ℤ) ∧
    ((rowStep (some bImg) (some cImg) false T w lrs lrw s y).diffHash,
      (rowStep (some bImg) (some cImg) false T w lrs lrw s y).diffHashStart)
      = (List.replicate (rowMismatchCount T (srcRead bImg bVp w) (srcRead cImg cVp w) w y)
          ((y : ℤ) * DIFF_HASH_SPREAD)).foldl hashStep (s.diffHash, s.diffHashStart) ∧
    (∀ i, i < y * w * 3 →
      listGet (rowStep (some bImg) (some cImg) false T w lrs lrw s y).canvas i
        = listGet s.canvas i) ∧
    (∀ i, y * w * 3 + 3 * w ≤ i →
      listGet (rowStep (some bImg) (some cImg) false T w lrs lrw s y).canvas i = 0) ∧
    (∀ x, x < w →
      listGet (rowStep (some bImg) (some cImg) false T w lrs lrw s y).canvas (y * w * 3 + x)
        = leftFinalPix T y x (srcRead bImg bVp w y x) (srcRead cImg cVp w y x)) ∧
    (∀ x, x < w →
      listGet (rowStep (some bImg) (some cImg) false T w lrs lrw s y).canvas
          (y * w * 3 + 2 * w + x)
        = rightFinalPix T y x (srcRead bImg bVp w y x) (srcRead cImg cVp w y x)) := by
  have e5 : y * w * 3 + w - w = y * w * 3 := by omega
  have e6 : y * w * 3 + w + w = y * w * 3 + 2 * w := by omega
  have hbound : y * w * 3 + 3 * w ≤ w * 3 * h := rowBound w y h hy
  -- the state after the two row copies
  have hrow : rowStep (some bImg) (some cImg) false T w lrs lrw s y
      = (List.range w).foldl (pixelStep T w lrs lrw y)
          (let s1 : LoopState :=
            if (s.bOffset : ℤ) ≤ (bImg.data.length : ℤ) - (w : ℤ) then
              { s with
                canvas := listBlit s.canvas (y * w * 3) ((bImg.data.drop s.bOffset).take w)
                bOffset := s.bOffset + bImg.width }
            else s
          if (s1.cOffset : ℤ) ≤ (cImg.data.length : ℤ) - (w : ℤ) then
            { s1 with
              canvas := listBlit s1.canvas (y * w * 3 + 2 * w)
                ((cImg.data.drop s1.cOffset).take w)
              cOffset := s1.cOffset + cImg.width }
          else s1) := by
    simp only [rowStep, e5, e6, Option.isSome_some, Bool.false_eq_true, if_false]
    simp
  -- properties of the baseline-copied state
  set s1 : LoopState :=
    if (s.bOffset : ℤ) ≤ (bImg.data.length : ℤ) - (w : ℤ) then
      { s with
        canvas := listBlit s.canvas (y * w * 3) ((bImg.data.drop s.bOffset).take w)
        bOffset := s.bOffset + bImg.width }
    else s with hs1
  have h1len : s1.canvas.length = w * 3 * h := by
    rw [hs1]; split <;> simp [listBlit_length, hlen]
  have h1b : s1.bOffset = offsetAt bImg bVp w (y + 1) := by
    rw [hs1, offsetAt, ← hbOff]
    split <;> simp_all
  have h1c : s1.cOffset = s.cOffset := by
    rw [hs1]; split <;> rfl
  have h1ctr : s1.mismatched = s.mismatched ∧ s1.diffHash = s.diffHash ∧
      s1.diffHashStart = s.diffHashStart := by
    rw [hs1]; split <;> exact ⟨rfl, rfl, rfl⟩
  have h1out : ∀ i, i < y * w * 3 ∨ y * w * 3 + w ≤ i →
      listGet s1.canvas i = listGet s.canvas i := by
    intro i hi
    rw [hs1]
    split
    · next hg =>
      have hlsrc : ((bImg.data.drop s.bOffset).take w).length = w := by
        simp only [List.length_take, List.length_drop]
        omega
      show listGet (listBlit s.canvas (y * w * 3) ((bImg.data.drop s.bOffset).take w)) i
          = listGet s.canvas i
      rw [listGet_blit_out _ _ _ _ (by rw [hlsrc]; omega)]
    · rfl
  have h1read : ∀ x, x < w →
      listGet s1.canvas (y * w * 3 + x) = srcRead bImg bVp w y x := by
    intro x hx
    rw [hs1, srcRead, ← hbOff]
    split
    · next hg =>
      have hlsrc : ((bImg.data.drop s.bOffset).take w).length = w := by
        simp only [List.length_take, List.length_drop]
        omega
      show listGet (listBlit s.canvas (y * w * 3) ((bImg.data.drop s.bOffset).take w))
          (y * w * 3 + x) = _
      rw [listGet_blit_in _ _ _ _ (by omega) (by rw [hlsrc]; omega),
        listGet_drop_take _ _ _ _ hx (by omega)]
    · exact hzero _ (by omega)
  -- properties of the candidate-copied state
  set s2 : LoopState :=
    if (s1.cOffset : ℤ) ≤ (cImg.data.length : ℤ) - (w : ℤ) then
      { s1 with
        canvas := listBlit s1.canvas (y * w * 3 + 2 * w) ((cImg.data.drop s1.cOffset).take w)
        cOffset := s1.cOffset + cImg.width }
    else s1 with hs2
  have h2len : s2.canvas.length = w * 3 * h := by
    rw [hs2]; split <;> simp [listBlit_length, h1len]
  have h2b : s2.bOffset = offsetAt bImg bVp w (y + 1) := by
    rw [hs2, ← h1b]; split <;> rfl
  have h2c : s2.cOffset = offsetAt cImg cVp w (y + 1) := by
    rw [hs2, offsetAt, ← hcOff, ← h1c]
    split <;> simp_all
  have h2ctr : s2.mismatched = s.mismatched ∧ s2.diffHash = s.diffHash ∧
      s2.diffHashStart = s.diffHashStart := by
    rw [hs2]
    split
    · exact ⟨h1ctr.1, h1ctr.2.1, h1ctr.2.2⟩
    · exact ⟨h1ctr.1, h1ctr.2.1, h1ctr.2.2⟩
  have h2out : ∀ i, i < y * w * 3 ∨ y * w * 3 + 3 * w ≤ i →
      listGet s2.canvas i = listGet s.canvas i := by
    intro i hi
    rw [hs2]
    split
    · next hg =>
      have hlsrc : ((cImg.data.drop s1.cOffset).take w).length = w := by
        simp only [List.length_take, List.length_drop]
        omega
      show listGet (listBlit s1.canvas (y * w * 3 + 2 * w)
          ((cImg.data.drop s1.cOffset).take w)) i = listGet s.canvas i
      rw [listGet_blit_out _ _ _ _ (by rw [hlsrc]; omega)]
      exact h1out i (by omega)
    · exact h1out i (by omega)
  have h2readL : ∀ x, x < w →
      listGet s2.canvas (y * w * 3 + x) = srcRead bImg bVp w y x := by
    intro x hx
    rw [hs2]
    split
    · next hg =>
      have hlsrc : ((cImg.data.drop s1.cOffset).take w).length = w := by
        simp only [List.length_take, List.length_drop]
        omega
      show listGet (listBlit s1.canvas (y * w * 3 + 2 * w)
          ((cImg.data.drop s1.cOffset).take w)) (y * w * 3 + x) = _
      rw [listGet_blit_out _ _ _ _ (by rw [hlsrc]; omega)]
      exact h1read x hx
    · exact h1read x hx
  have h2readR : ∀ x, x < w →
      listGet s2.canvas (y * w * 3 + 2 * w + x) = srcRead cImg cVp w y x := by
    intro x hx
    rw [hs2, srcRead, ← hcOff, ← h1c]
    split
    · next hg =>
      have hlsrc : ((cImg.data.drop s1.cOffset).take w).length = w := by
        simp only [List.length_take, List.length_drop]
        omega
      show listGet (listBlit s1.canvas (y * w * 3 + 2 * w)
          ((cImg.data.drop s1.cOffset).take w)) (y * w * 3 + 2 * w + x) = _
      rw [listGet_blit_in _ _ _ _ (by omega) (by rw [hlsrc]; omega),
        listGet_drop_take _ _ _ _ hx (by omega)]
    · rw [h1out _ (by omega)]
      exact hzero _ (by omega)
  rw [hrow]
  obtain ⟨q1, q2, q3, q4, q5, q6, q7, q8, q9, q10, q11⟩ :=
    compareRow_char T w lrs lrw y (srcRead bImg bVp w) (srcRead cImg cVp w) w 0 s2
      (by omega) (by omega) (fun x _ hx => h2readL x hx) (fun x _ hx => h2readR x hx)
  have hrange : List.range w = List.range' 0 w := List.range_eq_range' w
  rw [← hrange] at q1 q2 q3 q4 q5 q6 q7 q10 q11
  refine ⟨by rw [q3, h2len], by rw [q1, h2b], by rw [q2, h2c], ?_, ?_, ?_, ?_, ?_, ?_⟩
  · rw [q4, h2ctr.1, rowMismatchCount, hrange]
  · rw [q5, h2ctr.2.1, h2ctr.2.2, rowMismatchCount, hrange]
  · intro i hi
    rw [q6 i hi]
    exact h2out i (Or.inl hi)
  · intro i hi
    rw [q7 i hi, h2out i (Or.inr hi)]
    exact hzero i (by omega)
  · intro x hx
    exact q10 x (Nat.zero_le x) hx
  · intro x hx
    exact q11 x (Nat.zero_le x) hx

theorem foldl_listGet_eq {β : Type} (f : List Nat → β → List Nat)
    (l : List β) (i : Nat) :
    ∀ (c : List Nat), (∀ acc b, b ∈ l → listGet (f acc b) i = listGet acc i) →
    listGet (l.foldl f c) i = listGet c i := by
  induction l with
  | nil => intro c _; rfl
  | cons b t ih =>
    intro c hf
    rw [List.foldl_cons, ih (f c b) (fun acc x hx => hf acc x (List.mem_cons_of_mem b hx)),
      hf c b (List.mem_cons_self b t)]

/-- The low-resolution overlay pass only writes centre-panel cells, so any
index whose residue modulo the canvas row stride `w * 3` falls in the left
panel (`< w`) or the right panel (`>= 2 * w`) is untouched. -/
theorem overlayCanvas_get_side (w h lrs lrw lrh : Nat) (lowRes canvas : List Nat) (i : Nat)
    (hi : i % (w * 3) < w ∨ 2 * w ≤ i % (w * 3)) :
    listGet (overlayCanvas w h lrs lrw lrh lowRes canvas) i = listGet canvas i := by
  unfold overlayCanvas
  apply foldl_listGet_eq
  intro c1 lrY _
  dsimp only
  apply foldl_listGet_eq
  intro c2 lrX _
  dsimp only
  split
  · apply foldl_listGet_eq
    intro c3 y _
    dsimp only
    apply foldl_listGet_eq
    intro c4 x hx
    dsimp only
    have hxw : x < w := by
      have := List.mem_range'_1.mp hx
      have hle : min w (lrX * lrs + lrs) ≤ w := Nat.min_le_left _ _
      omega
    split
    · apply listGet_set_ne
      intro he
      have hw : 0 < w := by omega
      have hm1 : (y * w * 3 + w + x) % (w * 3) = w + x := by
        have h1 : y * w * 3 + w + x = (w + x) + (w * 3) * y := by ring
        rw [h1, Nat.add_mul_mod_self_left, Nat.mod_eq_of_lt (by omega)]
      rw [he] at hm1
      omega
    · rfl
  · rfl

/-- Invariant of the outer row loop when both images are present, after the
first `k` rows have been processed: canvas length, both offsets, the
mismatch counter and the hash state have their closed forms, every canvas
entry from row `k` on is still zero, and the side panels of the processed
rows hold their final values. -/
theorem diffRows_char (bImg cImg : Image) (bVp cVp : Viewport) (T : ℚ)
    (w h lrs lrw : Nat) (init : LoopState)
    (hinitLen : init.canvas.length = w * 3 * h)
    (hinit0 : ∀ i, listGet init.canvas i = 0)
    (hinitB : init.bOffset = bVp.x + bVp.y * bImg.width)
    (hinitC : init.cOffset = cVp.x + cVp.y * cImg.width) :
    ∀ k, k ≤ h →
    ((List.range k).foldl (rowStep (some bImg) (some cImg) false T w lrs lrw) init).canvas.length
      = w * 3 * h ∧
    ((List.range k).foldl (rowStep (some bImg) (some cImg) false T w lrs lrw) init).bOffset
      = offsetAt bImg bVp w k ∧
    ((List.range k).foldl (rowStep (some bImg) (some cImg) false T w lrs lrw) init).cOffset
      = offsetAt cImg cVp w k ∧
    ((List.range k).foldl (rowStep (some bImg) (some cImg) false T w lrs lrw) init).mismatched
      = init.mismatched
        + (mismatchCount T (srcRead bImg bVp w) (srcRead cImg cVp w) w k : ℤ) ∧
    (((List.range k).foldl (rowStep (some bImg) (some cImg) false T w lrs lrw) init).diffHash,
      ((List.range k).foldl (rowStep (some bImg) (some cImg) false T w lrs lrw) init).diffHashStart)
      = (mismatchKeys T (srcRead bImg bVp w) (srcRead cImg cVp w) w k).foldl hashStep
          (init.diffHash, init.diffHashStart) ∧
    (∀ i, k * w * 3 ≤ i →
      listGet ((List.range k).foldl (rowStep (some bImg) (some cImg) false T w lrs lrw)
        init).canvas i = 0) ∧
    (∀ y x, y < k → x < w →
      listGet ((List.range k).foldl (rowStep (some bImg) (some cImg) false T w lrs lrw)
          init).canvas (y * w * 3 + x)
        = leftFinalPix T y x (srcRead bImg bVp w y x) (srcRead cImg cVp w y x)) ∧
    (∀ y x, y < k → x < w →
      listGet ((List.range k).foldl (rowStep (some bImg) (some cImg) false T w lrs lrw)
          init).canvas (y * w * 3 + 2 * w + x)
        = rightFinalPix T y x (srcRead bImg bVp w y x) (srcRead cImg cVp w y x)) := by
  intro k
  induction k with
  | zero =>
    intro _
    refine ⟨hinitLen, hinitB, hinitC, by simp [mismatchCount], by simp [mismatchKeys],
      fun i _ => hinit0 i, fun y x hy _ => absurd hy (Nat.not_lt_zero y),
      fun y x hy _ => absurd hy (Nat.not_lt_zero y)⟩
  | succ k ih =>
    intro hk1
    have hkh : k < h := by omega
    obtain ⟨i1, i2, i3, i4, i5, i6, i7, i8⟩ := ih (Nat.le_of_lt hkh)
    rw [List.range_succ, List.foldl_append, List.foldl_cons, List.foldl_nil]
    obtain ⟨r1, r2, r3, r4, r5, r6, r7, r8, r9⟩ :=
      rowStep_char_both bImg cImg bVp cVp T w h lrs lrw k hkh _ i1 i6 i2 i3
    have ebr : (k + 1) * w * 3 = k * w * 3 + 3 * w := by ring
    refine ⟨r1, r2, r3, ?_, ?_, ?_, ?_, ?_⟩
    · rw [r4, i4, mismatchCount]
      push_cast
      ring
    · rw [r5, mismatchKeys, List.foldl_append]
      rw [show (((List.range k).foldl (rowStep (some bImg) (some cImg) false T w lrs lrw)
            init).diffHash,
          ((List.range k).foldl (rowStep (some bImg) (some cImg) false T w lrs lrw)
            init).diffHashStart)
          = (mismatchKeys T (srcRead bImg bVp w) (srcRead cImg cVp w) w k).foldl hashStep
              (init.diffHash, init.diffHashStart) from i5]
    · intro i hi
      exact r7 i (by omega)
    · intro y x hy hx
      by_cases hyk : y = k
      · subst hyk
        exact r8 x hx
      · have hylt : y < k := by omega
        have hb1 : (y + 1) * (w * 3) ≤ k * (w * 3) := Nat.mul_le_mul_right (w * 3) hylt
        have hb2 : (y + 1) * (w * 3) = y * w * 3 + 3 * w := by ring
        have hb3 : k * (w * 3) = k * w * 3 := by ring
        rw [r6 _ (by omega)]
        exact i7 y x hylt hx
    · intro y x hy hx
      by_cases hyk : y = k
      · subst hyk
        exact r9 x hx
      · have hylt : y < k := by omega
        have hb1 : (y + 1) * (w * 3) ≤ k * (w * 3) := Nat.mul_le_mul_right (w * 3) hylt
        have hb2 : (y + 1) * (w * 3) = y * w * 3 + 3 * w := by ring
        have hb3 : k * (w * 3) = k * w * 3 := by ring
        rw [r6 _ (by omega)]
        exact i8 y x hylt hx

/-- On two present images `diffImagesAsync` is exactly the explicit
both-present run. -/
theorem diffImagesAsync_both_run (bImg cImg : Image) (bVp cVp : Viewport) (t : Option ℚ) :
    diffImagesAsync (some (bImg, bVp)) (some (cImg, cVp)) t
      = some (diffBothOutcome bImg cImg bVp cVp t) := by
  with_unfolding_all rfl

/-- Characterisation of the loop state of a both-present run: the mismatch
counter and hash state have their closed forms, and the side panels of every
cell of the comparison bounds hold their final values. -/
theorem diffBothState_char (bImg cImg : Image) (bVp cVp : Viewport) (t : Option ℚ) :
    (diffBothState bImg cImg bVp cVp t).mismatched
      = (bothMismatchCount bImg cImg bVp cVp t : ℤ) ∧
    ((diffBothState bImg cImg bVp cVp t).diffHash,
      (diffBothState bImg cImg bVp cVp t).diffHashStart)
      = hashFold (bothMismatchKeys bImg cImg bVp cVp t) ∧
    (∀ y x, y < diffHeight bVp cVp → x < diffWidth bVp cVp →
      listGet (diffBothState bImg cImg bVp cVp t).canvas (y * diffWidth bVp cVp * 3 + x)
        = leftFinalPix (effectiveThreshold t) y x
            (srcRead bImg bVp (diffWidth bVp cVp) y x)
            (srcRead cImg cVp (diffWidth bVp cVp) y x)) ∧
    (∀ y x, y < diffHeight bVp cVp → x < diffWidth bVp cVp →
      listGet (diffBothState bImg cImg bVp cVp t).canvas
          (y * diffWidth bVp cVp * 3 + 2 * diffWidth bVp cVp + x)
        = rightFinalPix (effectiveThreshold t) y x
            (srcRead bImg bVp (diffWidth bVp cVp) y x)
            (srcRead cImg cVp (diffWidth bVp cVp) y x)) := by
  obtain ⟨d1, d2, d3, d4, d5, d6, d7, d8⟩ :=
    diffRows_char bImg cImg bVp cVp (effectiveThreshold t)
      (diffWidth bVp cVp) (diffHeight bVp cVp)
      (ceilDiv (min (diffWidth bVp cVp) (diffHeight bVp cVp)) 8)
      (ceilDiv (diffWidth bVp cVp) (ceilDiv (min (diffWidth bVp cVp) (diffHeight bVp cVp)) 8))
      { canvas := List.replicate (diffWidth bVp cVp * 3 * diffHeight bVp cVp) 0
        lowRes := List.replicate
          (ceilDiv (diffWidth bVp cVp) (ceilDiv (min (diffWidth bVp cVp) (diffHeight bVp cVp)) 8)
            * ceilDiv (diffHeight bVp cVp)
                (ceilDiv (min (diffWidth bVp cVp) (diffHeight bVp cVp)) 8)) 0
        bOffset := bVp.x + bVp.y * bImg.width
        cOffset := cVp.x + cVp.y * cImg.width
        mismatched := 0
        diffHash := 0
        diffHashStart := 0 }
      (by simp) (fun i => listGet_replicate _ i) rfl rfl
      (diffHeight bVp cVp) (Nat.le_refl (diffHeight bVp cVp))
  refine ⟨?_, ?_, d7, d8⟩
  · rw [show diffBothState bImg cImg bVp cVp t
        = (List.range (diffHeight bVp cVp)).foldl
            (rowStep (some bImg) (some cImg) false (effectiveThreshold t)
              (diffWidth bVp cVp)
              (ceilDiv (min (diffWidth bVp cVp) (diffHeight bVp cVp)) 8)
              (ceilDiv (diffWidth bVp cVp)
                (ceilDiv (min (diffWidth bVp cVp) (diffHeight bVp cVp)) 8)))
            { canvas := List.replicate (diffWidth bVp cVp * 3 * diffHeight bVp cVp) 0
              lowRes := List.replicate
                (ceilDiv (diffWidth bVp cVp)
                    (ceilDiv (min (diffWidth bVp cVp) (diffHeight bVp cVp)) 8)
                  * ceilDiv (diffHeight bVp cVp)
                      (ceilDiv (min (diffWidth bVp cVp) (diffHeight bVp cVp)) 8)) 0
              bOffset := bVp.x + bVp.y * bImg.width
              cOffset := cVp.x + cVp.y * cImg.width
              mismatched := 0
              diffHash := 0
              diffHashStart := 0 } from rfl]
    rw [d4]
    simp [bothMismatchCount]
  · rw [show diffBothState bImg cImg bVp cVp t
        = (List.range (diffHeight bVp cVp)).foldl
            (rowStep (some bImg) (some cImg) false (effectiveThreshold t)
              (diffWidth bVp cVp)
              (ceilDiv (min (diffWidth bVp cVp) (diffHeight bVp cVp)) 8)
              (ceilDiv (diffWidth bVp cVp)
                (ceilDiv (min (diffWidth bVp cVp) (diffHeight bVp cVp)) 8)))
            { canvas := List.replicate (diffWidth bVp cVp * 3 * diffHeight bVp cVp) 0
              lowRes := List.replicate
                (ceilDiv (diffWidth bVp cVp)
                    (ceilDiv (min (diffWidth bVp cVp) (diffHeight bVp cVp)) 8)
                  * ceilDiv (diffHeight bVp cVp)
                      (ceilDiv (min (diffWidth bVp cVp) (diffHeight bVp cVp)) 8)) 0
              bOffset := bVp.x + bVp.y * bImg.width
              cOffset := cVp.x + cVp.y * cImg.width
              mismatched := 0
              diffHash := 0
              diffHashStart := 0 } from rfl]
    rw [d5]
    rfl

/-- Characterisation of the full both-present outcome: canvas dimensions,
the closed forms of `mismatchedPixels` and `diffHash`, and the final
side-panel contents (the overlay pass only touches the centre panel). -/
theorem diffBothOutcome_char (bImg cImg : Image) (bVp cVp : Viewport) (t : Option ℚ) :
    (diffBothOutcome bImg cImg bVp cVp t).canvasWidth = diffWidth bVp cVp * 3 ∧
    (diffBothOutcome bImg cImg bVp cVp t).canvasHeight = diffHeight bVp cVp ∧
    (diffBothOutcome bImg cImg bVp cVp t).mismatchedPixels
      = (bothMismatchCount bImg cImg bVp cVp t : ℤ) ∧
    (diffBothOutcome bImg cImg bVp cVp t).diffHash
      = (hashFold (bothMismatchKeys bImg cImg bVp cVp t)).1 ∧
    (∀ y x, y < diffHeight bVp cVp → x < diffWidth bVp cVp →
      listGet (diffBothOutcome bImg cImg bVp cVp t).canvas (y * diffWidth bVp cVp * 3 + x)
        = leftFinalPix (effectiveThreshold t) y x
            (srcRead bImg bVp (diffWidth bVp cVp) y x)
            (srcRead cImg cVp (diffWidth bVp cVp) y x)) ∧
    (∀ y x, y < diffHeight bVp cVp → x < diffWidth bVp cVp →
      listGet (diffBothOutcome bImg cImg bVp cVp t).canvas
          (y * diffWidth bVp cVp * 3 + 2 * diffWidth bVp cVp + x)
        = rightFinalPix (effectiveThreshold t) y x
            (srcRead bImg bVp (diffWidth bVp cVp) y x)
            (srcRead cImg cVp (diffWidth bVp cVp) y x)) := by
  obtain ⟨c1, c2, c3, c4⟩ := diffBothState_char bImg cImg bVp cVp t
  have hm : (diffBothOutcome bImg cImg bVp cVp t).mismatchedPixels
      = (diffBothState bImg cImg bVp cVp t).mismatched := by
    unfold diffBothOutcome
    dsimp only
    split <;> rfl
  have hh : (diffBothOutcome bImg cImg bVp cVp t).diffHash
      = (diffBothState bImg cImg bVp cVp t).diffHash := by
    unfold diffBothOutcome
    dsimp only
    split <;> rfl
  have hcanvas : ∀ i,
      i % (diffWidth bVp cVp * 3) < diffWidth bVp cVp
        ∨ 2 * diffWidth bVp cVp ≤ i % (diffWidth bVp cVp * 3) →
      listGet (diffBothOutcome bImg cImg bVp cVp t).canvas i
        = listGet (diffBothState bImg cImg bVp cVp t).canvas i := by
    intro i hi
    unfold diffBothOutcome
    dsimp only
    split
    · exact overlayCanvas_get_side _ _ _ _ _ _ _ i hi
    · rfl
  refine ⟨rfl, rfl, hm.trans c1, by rw [hh]; exact congrArg Prod.fst c2, ?_, ?_⟩
  · intro y x hy hx
    have hmod : (y * diffWidth bVp cVp * 3 + x) % (diffWidth bVp cVp * 3) = x := by
      have h1 : y * diffWidth bVp cVp * 3 + x = x + (diffWidth bVp cVp * 3) * y := by ring
      rw [h1, Nat.add_mul_mod_self_left, Nat.mod_eq_of_lt (by omega)]
    rw [hcanvas _ (Or.inl (by rw [hmod]; omega))]
    exact c3 y x hy hx
  · intro y x hy hx
    have hmod : (y * diffWidth bVp cVp * 3 + 2 * diffWidth bVp cVp + x)
        % (diffWidth bVp cVp * 3) = 2 * diffWidth bVp cVp + x := by
      have h1 : y * diffWidth bVp cVp * 3 + 2 * diffWidth bVp cVp + x
          = (2 * diffWidth bVp cVp + x) + (diffWidth bVp cVp * 3) * y := by ring
      rw [h1, Nat.add_mul_mod_self_left, Nat.mod_eq_of_lt (by omega)]
    rw [hcanvas _ (Or.inr (by rw [hmod]; omega))]
    exact c4 y x hy hx

/-!
Facts about the key sequence and the hash.
-/

theorem mismatchKeys_length (T : ℚ) (bR cR : Nat → Nat → Nat) (w : Nat) :
    ∀ k, (mismatchKeys T bR cR w k).length = mismatchCount T bR cR w k := by
  intro k
  induction k with
  | zero => rfl
  | succ k ih => simp [mismatchKeys, mismatchCount, ih]

theorem mismatchKeys_mem (T : ℚ) (bR cR : Nat → Nat → Nat) (w : Nat) :
    ∀ k a, a ∈ mismatchKeys T bR cR w k → ∃ y, y < k ∧ a = (y : ℤ) * DIFF_HASH_SPREAD := by
  intro k
  induction k with
  | zero => intro a ha; simp [mismatchKeys] at ha
  | succ k ih =>
    intro a ha
    rw [mismatchKeys] at ha
    rcases List.mem_append.mp ha with h | h
    · obtain ⟨y, hy, he⟩ := ih a h
      exact ⟨y, by omega, he⟩
    · exact ⟨k, by omega, List.eq_of_mem_replicate h⟩

theorem pairwise_le_replicate (n : Nat) (a : ℤ) :
    (List.replicate n a).Pairwise (fun p q => p ≤ q) := by
  induction n with
  | zero => simp
  | succ n ih =>
    rw [List.replicate_succ]
    exact List.Pairwise.cons (fun b hb => le_of_eq (List.eq_of_mem_replicate hb).symm) ih

theorem mismatchKeys_pairwise (T : ℚ) (bR cR : Nat → Nat → Nat) (w : Nat) :
    ∀ k, (mismatchKeys T bR cR w k).Pairwise (fun p q => p ≤ q) := by
  intro k
  induction k with
  | zero => simp [mismatchKeys]
  | succ k ih =>
    rw [mismatchKeys, List.pairwise_append]
    refine ⟨ih, pairwise_le_replicate _ _, ?_⟩
    intro a ha b hb
    obtain ⟨y, hy, rfl⟩ := mismatchKeys_mem T bR cR w k a ha
    rw [List.eq_of_mem_replicate hb]
    have hspread : (0 : ℤ) ≤ DIFF_HASH_SPREAD := by
      have : DIFF_HASH_SPREAD = (4919 : ℤ) := rfl
      omega
    have hyk : (y : ℤ) ≤ (k : ℤ) := by exact_mod_cast Nat.le_of_lt hy
    exact mul_le_mul_of_nonneg_right hyk hspread

theorem hashFold_go (st : ℤ) :
    ∀ (ks : List ℤ) (a : ℤ), DIFF_HASH_SPREAD ≤ a → (∀ k ∈ ks, st ≤ k) →
    ks.foldl hashStep (a, st) = (a + (ks.map fun k => k - st).sum, st) := by
  intro ks
  induction ks with
  | nil => intro a _ _; simp
  | cons k ks ih =>
    intro a ha hks
    have hspread : DIFF_HASH_SPREAD = (4919 : ℤ) := rfl
    have hk : st ≤ k := hks k (List.mem_cons_self k ks)
    have hstep : hashStep (a, st) k = (a + (k - st), st) := by
      unfold hashStep
      rw [if_neg (by omega)]
    rw [List.foldl_cons, hstep,
      ih (a + (k - st)) (by omega) (fun k2 hk2 => hks k2 (List.mem_cons_of_mem k hk2))]
    rw [Prod.mk.injEq]
    constructor
    · rw [List.map_cons, List.sum_cons]
      ring
    · rfl

theorem hashFold_cons_sorted (k : ℤ) (ks : List ℤ) (hks : ∀ a ∈ ks, k ≤ a) :
    hashFold (k :: ks) = (specHashOfKeys (k :: ks), k) := by
  unfold hashFold
  rw [List.foldl_cons]
  have h0 : hashStep (0, 0) k = (DIFF_HASH_SPREAD, k) := by
    unfold hashStep
    simp
  rw [h0, hashFold_go k ks DIFF_HASH_SPREAD (le_refl _) hks]
  unfold specHashOfKeys
  rfl

theorem hashFold_fst_eq_specHash (T : ℚ) (bR cR : Nat → Nat → Nat) (w k : Nat) :
    (hashFold (mismatchKeys T bR cR w k)).1 = specHashOfKeys (mismatchKeys T bR cR w k) := by
  cases hks : mismatchKeys T bR cR w k with
  | nil => rfl
  | cons a l =>
    have hp := mismatchKeys_pairwise T bR cR w k
    rw [hks] at hp
    rw [hashFold_cons_sorted a l (List.pairwise_cons.mp hp).1]

theorem specHashOfKeys_pos (k : ℤ) (ks : List ℤ) (hks : ∀ a ∈ ks, k ≤ a) :
    0 < specHashOfKeys (k :: ks) := by
  simp only [specHashOfKeys]
  have hsum : 0 ≤ (ks.map fun a => a - k).sum := by
    apply List.sum_nonneg
    intro x hx
    obtain ⟨a, ha, rfl⟩ := List.mem_map.mp hx
    have := hks a ha
    omega
  have hspread : DIFF_HASH_SPREAD = (4919 : ℤ) := rfl
  omega

theorem specHash_mismatchKeys_eq_zero_iff (T : ℚ) (bR cR : Nat → Nat → Nat) (w k : Nat) :
    (specHashOfKeys (mismatchKeys T bR cR w k) = 0 ↔ mismatchCount T bR cR w k = 0) := by
  rw [← mismatchKeys_length T bR cR w k]
  cases hks : mismatchKeys T bR cR w k with
  | nil => simp [specHashOfKeys]
  | cons a l =>
    have hp := mismatchKeys_pairwise T bR cR w k
    rw [hks] at hp
    have hpos := specHashOfKeys_pos a l (List.pairwise_cons.mp hp).1
    constructor
    · intro h
      omega
    · intro h
      simp at h

/-!
Monotonicity of the mismatch classification and counts in the threshold,
and behaviour on identical sides.
-/

theorem isMismatch_antitone (T1 T2 : ℚ) (hT : T1 ≤ T2) (b c : Nat)
    (h : isMismatch T2 b c = true) : isMismatch T1 b c = true := by
  simp only [isMismatch, decide_eq_true_eq, not_lt] at h ⊢
  exact le_trans hT h

theorem length_filter_le_of_imp {α : Type} (l : List α) (p q : α → Bool)
    (h : ∀ a ∈ l, p a = true → q a = true) :
    (l.filter p).length ≤ (l.filter q).length := by
  induction l with
  | nil => simp
  | cons a l ih =>
    have ih2 := ih (fun b hb => h b (List.mem_cons_of_mem a hb))
    simp only [List.filter_cons]
    by_cases hp : p a = true
    · rw [if_pos hp, if_pos (h a (List.mem_cons_self a l) hp)]
      simpa using ih2
    · rw [if_neg hp]
      by_cases hq : q a = true
      · rw [if_pos hq]
        exact le_trans ih2 (by simp)
      · rw [if_neg hq]
        exact ih2

theorem mismatchCount_antitone (T1 T2 : ℚ) (hT : T1 ≤ T2)
    (bR cR : Nat → Nat → Nat) (w : Nat) :
    ∀ k, mismatchCount T2 bR cR w k ≤ mismatchCount T1 bR cR w k := by
  intro k
  induction k with
  | zero => exact le_refl 0
  | succ k ih =>
    rw [mismatchCount, mismatchCount]
    have hrow : rowMismatchCount T2 bR cR w k ≤ rowMismatchCount T1 bR cR w k :=
      length_filter_le_of_imp (List.range w) _ _
        (fun x _ hx => isMismatch_antitone T1 T2 hT (bR k x) (cR k x) hx)
    omega

theorem isMismatch_self (T : ℚ) (hT : 0 < T) (a : Nat) : isMismatch T a a = false := by
  simp only [isMismatch, decide_eq_false_iff_not, not_not, brightnessDiff, if_pos rfl]
  exact hT

theorem mismatchCount_self (T : ℚ) (hT : 0 < T) (r : Nat → Nat → Nat) (w : Nat) :
    ∀ k, mismatchCount T r r w k = 0 := by
  intro k
  induction k with
  | zero => rfl
  | succ k ih =>
    rw [mismatchCount, ih, rowMismatchCount]
    rw [List.filter_eq_nil.mpr (fun x _ => by simp [isMismatch_self T hT])]
    rfl

theorem mismatchKeys_self (T : ℚ) (hT : 0 < T) (r : Nat → Nat → Nat) (w : Nat) :
    ∀ k, mismatchKeys T r r w k = [] := by
  intro k
  induction k with
  | zero => rfl
  | succ k ih =>
    rw [mismatchKeys, ih, rowMismatchCount]
    rw [List.filter_eq_nil.mpr (fun x _ => by simp [isMismatch_self T hT])]
    rfl

/-!
Facts about the effective threshold.
-/

theorem effectiveThreshold_none : effectiveThreshold none = 255 * DEFAULT_THRESHOLD := by
  simp only [effectiveThreshold, jsNumberOr, DEFAULT_THRESHOLD, Rat.mkRat_eq_div]
  rw [max_eq_right (by norm_num), min_eq_right (by norm_num)]

theorem effectiveThreshold_zero : effectiveThreshold (some 0) = 255 * DEFAULT_THRESHOLD := by
  simp only [effectiveThreshold, jsNumberOr, DEFAULT_THRESHOLD, Rat.mkRat_eq_div, if_pos rfl,
    if_true, eq_self_iff_true]
  rw [max_eq_right (by norm_num), min_eq_right (by norm_num)]

theorem effectiveThreshold_of_ne_zero (t : ℚ) (ht : t ≠ 0) :
    effectiveThreshold (some t) = 255 * min 1 (max 0 t) := by
  simp only [effectiveThreshold, jsNumberOr, if_neg ht]

theorem effectiveThreshold_pos (t : ℚ) (h0 : 0 ≤ t) (h1 : t ≤ 1) :
    0 < effectiveThreshold (some t) := by
  by_cases ht : t = 0
  · rw [ht, effectiveThreshold_zero]
    unfold DEFAULT_THRESHOLD
    rw [Rat.mkRat_eq_div]
    norm_num
  · rw [effectiveThreshold_of_ne_zero t ht]
    have hpos : 0 < t := lt_of_le_of_ne h0 (fun he => ht he.symm)
    have hmax : max 0 t = t := max_eq_right h0
    have hmin : min 1 (max 0 t) = t := by rw [hmax]; exact min_eq_right h1
    rw [hmin]
    positivity

theorem effectiveThreshold_mono (t1 t2 : ℚ) (h1 : 0 < t1) (h12 : t1 < t2) :
    effectiveThreshold (some t1) ≤ effectiveThreshold (some t2) := by
  rw [effectiveThreshold_of_ne_zero t1 (ne_of_gt h1),
    effectiveThreshold_of_ne_zero t2 (ne_of_gt (lt_trans h1 h12))]
  have : min 1 (max 0 t1) ≤ min 1 (max 0 t2) :=
    min_le_min (le_refl 1) (max_le_max (le_refl 0) (le_of_lt h12))
  have h255 : (0 : ℚ) ≤ 255 := by norm_num
  exact mul_le_mul_of_nonneg_left this h255

/-!
The one-image (missing baseline / missing candidate) paths: the pixel
comparison never runs, so the counters keep their initial values.
-/

theorem rowStep_counters (bI cI : Option Image) (m : Bool) (T : ℚ) (w lrs lrw : Nat)
    (s : LoopState) (y : Nat) (hno : ¬(bI.isSome = true ∧ cI.isSome = true)) :
    (rowStep bI cI m T w lrs lrw s y).mismatched = s.mismatched ∧
    (rowStep bI cI m T w lrs lrw s y).diffHash = s.diffHash := by
  unfold rowStep
  rw [if_neg hno]
  cases bI <;> cases cI <;> dsimp only <;>
    constructor <;> (repeat' split) <;> rfl

theorem foldl_rowStep_counters (bI cI : Option Image) (m : Bool) (T : ℚ) (w lrs lrw : Nat)
    (hno : ¬(bI.isSome = true ∧ cI.isSome = true)) (l : List Nat) :
    ∀ s : LoopState,
    ((l.foldl (rowStep bI cI m T w lrs lrw) s).mismatched = s.mismatched ∧
     (l.foldl (rowStep bI cI m T w lrs lrw) s).diffHash = s.diffHash) := by
  induction l with
  | nil => intro s; exact ⟨rfl, rfl⟩
  | cons a l ih =>
    intro s
    rw [List.foldl_cons]
    obtain ⟨h1, h2⟩ := ih (rowStep bI cI m T w lrs lrw s a)
    obtain ⟨g1, g2⟩ := rowStep_counters bI cI m T w lrs lrw s a hno
    exact ⟨h1.trans g1, h2.trans g2⟩

theorem diffImagesAsync_onlyBaseline_run (img : Image) (vp : Viewport) (t : Option ℚ) :
    diffImagesAsync (some (img, vp)) none t = some (diffOnlyBaselineOutcome img vp t) := by
  with_unfolding_all rfl

theorem diffImagesAsync_onlyCandidate_run (img : Image) (vp : Viewport) (t : Option ℚ) :
    diffImagesAsync none (some (img, vp)) t = some (diffOnlyCandidateOutcome img vp t) := by
  with_unfolding_all rfl

/-- When neither image exists the function produces no result at all. -/
theorem diffImagesAsync_none_none (t : Option ℚ) :
    diffImagesAsync none none t = none := rfl

theorem diffOnlyBaselineOutcome_counters (img : Image) (vp : Viewport) (t : Option ℚ) :
    (diffOnlyBaselineOutcome img vp t).mismatchedPixels = MISSING_CANDIDATE ∧
    (diffOnlyBaselineOutcome img vp t).diffHash = 0 := by
  have hno : ¬((some img : Option Image).isSome = true
      ∧ (none : Option Image).isSome = true) := by simp
  obtain ⟨h1, h2⟩ := foldl_rowStep_counters (some img) none true (effectiveThreshold t)
    vp.width (ceilDiv (min vp.width vp.height) 8)
    (ceilDiv vp.width (ceilDiv (min vp.width vp.height) 8)) hno
    (List.range vp.height)
    { canvas := List.replicate (vp.width * 3 * vp.height) 0
      lowRes := List.replicate
        (ceilDiv vp.width (ceilDiv (min vp.width vp.height) 8)
          * ceilDiv vp.height (ceilDiv (min vp.width vp.height) 8)) 0
      bOffset := vp.x + vp.y * img.width
      cOffset := 0
      mismatched := MISSING_CANDIDATE
      diffHash := 0
      diffHashStart := 0 }
  have hs : (diffOnlyBaselineState img vp t).mismatched = MISSING_CANDIDATE ∧
      (diffOnlyBaselineState img vp t).diffHash = 0 := ⟨h1, h2⟩
  unfold diffOnlyBaselineOutcome
  dsimp only
  constructor
  · split <;> exact hs.1
  · split <;> exact hs.2

theorem diffOnlyCandidateOutcome_counters (img : Image) (vp : Viewport) (t : Option ℚ) :
    (diffOnlyCandidateOutcome img vp t).mismatchedPixels = MISSING_BASELINE ∧
    (diffOnlyCandidateOutcome img vp t).diffHash = 0 := by
  have hno : ¬((none : Option Image).isSome = true
      ∧ (some img : Option Image).isSome = true) := by simp
  obtain ⟨h1, h2⟩ := foldl_rowStep_counters none (some img) true (effectiveThreshold t)
    (max 0 vp.width) (ceilDiv (min (max 0 vp.width) (max 0 vp.height)) 8)
    (ceilDiv (max 0 vp.width) (ceilDiv (min (max 0 vp.width) (max 0 vp.height)) 8)) hno
    (List.range (max 0 vp.height))
    { canvas := List.replicate (max 0 vp.width * 3 * max 0 vp.height) 0
      lowRes := List.replicate
        (ceilDiv (max 0 vp.width) (ceilDiv (min (max 0 vp.width) (max 0 vp.height)) 8)
          * ceilDiv (max 0 vp.height) (ceilDiv (min (max 0 vp.width) (max 0 vp.height)) 8)) 0
      bOffset := 0
      cOffset := vp.x + vp.y * img.width
      mismatched := MISSING_BASELINE
      diffHash := 0
      diffHashStart := 0 }
  have hs : (diffOnlyCandidateState img vp t).mismatched = MISSING_BASELINE ∧
      (diffOnlyCandidateState img vp t).diffHash = 0 := ⟨h1, h2⟩
  unfold diffOnlyCandidateOutcome
  dsimp only
  constructor
  · split <;> exact hs.1
  · split <;> exact hs.2

/-!
Claim theorems.  Concrete evaluations use `decide`; the rational arithmetic
of Batteries is `@[irreducible]` for performance only, so it is made
semireducible locally to let the elaborator evaluate it the way the kernel
does.
-/

section ClaimTheorems

attribute [local semireducible] Rat.add Rat.mul Rat.sub Rat.inv

set_option maxRecDepth 8000

/-- Claim C1: the spec says the brightness difference used for
classification is 0.299*|dR| + 0.587*|dG| + 0.114*|dB| over the red, green
and blue channels with alpha excluded, and the code's own comment says the
same; but the code reads bytes 1..3 of the packed RGBA word, which are the
GREEN, BLUE and ALPHA samples.  At a 1x1 fully-opaque pure-red baseline
against a fully-opaque black candidate the code computes brightness
difference 0 and reports a perfect match (0 mismatches, hash 0, no file
written), while the specified formula gives 76.245, far above the default
effective threshold 7.65, i.e. a mismatch. -/
theorem C1_channel_order_bug :
    ((diffImagesAsync (some (⟨⟨1, 1, [0xff0000ff]⟩, ⟨0, 0, 1, 1, 1⟩⟩ : Image × Viewport))
        (some (⟨⟨1, 1, [0xff000000]⟩, ⟨0, 0, 1, 1, 1⟩⟩ : Image × Viewport)) none).map
      (fun o => (o.mismatchedPixels, o.diffHash, diffFileWritten o)))
      = some (0, 0, false)
    ∧ brightnessDiff 0xff0000ff 0xff000000 = 0
    ∧ specLumaDiffRGB 0xff0000ff 0xff000000 = mkRat 15249 200
    ∧ ¬ specLumaDiffRGB 0xff0000ff 0xff000000 < effectiveThreshold none := by
  refine ⟨by decide, by decide, by decide, by decide⟩

/-- Claim C2, counterexample: with only the BASELINE image present (a 1x1
black image), `diffImagesAsync` returns the MISSING-CANDIDATE sentinel, not
the missing-baseline sentinel that the claim asserts; the two sentinels are
distinct. -/
theorem C2_counterexample :
    ((diffImagesAsync (some (⟨⟨1, 1, [0xff000000]⟩, ⟨0, 0, 1, 1, 1⟩⟩ : Image × Viewport))
        none (some (mkRat 3 100))).map
      (fun o => (o.mismatchedPixels, o.diffHash)))
      = some (MISSING_CANDIDATE, 0)
    ∧ MISSING_CANDIDATE ≠ MISSING_BASELINE := by
  refine ⟨by decide, by decide⟩

/-- Claim C2 as amended: if only the baseline exists the result is the
MISSING-CANDIDATE sentinel (the candidate is the absent one); if only the
candidate exists it is the MISSING-BASELINE sentinel; if neither exists no
result is produced; and in the one-image case no pixel comparison happens —
the counters come through untouched (`diffHash` stays 0 and
`mismatchedPixels` stays the sentinel regardless of the image's pixels). -/
theorem C2_amended_sentinels (img : Image) (vp : Viewport) (t : Option ℚ)
    (hw : 0 < vp.width) (hh : 0 < vp.height) :
    ((diffImagesAsync (some (img, vp)) none t).map
        (fun o => (o.mismatchedPixels, o.diffHash))) = some (MISSING_CANDIDATE, 0)
    ∧ ((diffImagesAsync none (some (img, vp)) t).map
        (fun o => (o.mismatchedPixels, o.diffHash))) = some (MISSING_BASELINE, 0)
    ∧ diffImagesAsync none none t = none := by
  refine ⟨?_, ?_, diffImagesAsync_none_none t⟩
  · rw [diffImagesAsync_onlyBaseline_run, Option.map_some']
    obtain ⟨h1, h2⟩ := diffOnlyBaselineOutcome_counters img vp t
    rw [h1, h2]
  · rw [diffImagesAsync_onlyCandidate_run, Option.map_some']
    obtain ⟨h1, h2⟩ := diffOnlyCandidateOutcome_counters img vp t
    rw [h1, h2]

theorem C2_amended_sentinels_witness :
    ((diffImagesAsync (some (⟨⟨1, 1, [0xffffffff]⟩, ⟨0, 0, 1, 1, 1⟩⟩ : Image × Viewport))
        none none).map
        (fun o => (o.mismatchedPixels, o.diffHash))) = some (MISSING_CANDIDATE, 0)
    ∧ ((diffImagesAsync none
        (some (⟨⟨1, 1, [0xffffffff]⟩, ⟨0, 0, 1, 1, 1⟩⟩ : Image × Viewport)) none).map
        (fun o => (o.mismatchedPixels, o.diffHash))) = some (MISSING_BASELINE, 0)
    ∧ diffImagesAsync none none none = none :=
  C2_amended_sentinels ⟨1, 1, [0xffffffff]⟩ ⟨0, 0, 1, 1, 1⟩ none (by decide) (by decide)

/-- Claim C3, counterexample: monotonicity fails at threshold 0.  With a 1x1
pair whose brightness difference is 2.99, threshold t1 = 0 (falsy, so it
falls back to 0.03, effective 7.65) yields 0 mismatches while the larger
threshold t2 = 0.01 (effective 2.55) yields 1 mismatch, so mismatches at
the smaller threshold are NOT greater than or equal. -/
theorem C3_counterexample :
    ((diffImagesAsync (some (⟨⟨1, 1, [0xff000000]⟩, ⟨0, 0, 1, 1, 1⟩⟩ : Image × Viewport))
        (some (⟨⟨1, 1, [0xff000a00]⟩, ⟨0, 0, 1, 1, 1⟩⟩ : Image × Viewport)) (some 0)).map
      (fun o => o.mismatchedPixels)) = some 0
    ∧ ((diffImagesAsync (some (⟨⟨1, 1, [0xff000000]⟩, ⟨0, 0, 1, 1, 1⟩⟩ : Image × Viewport))
        (some (⟨⟨1, 1, [0xff000a00]⟩, ⟨0, 0, 1, 1, 1⟩⟩ : Image × Viewport))
        (some (mkRat 1 100))).map
      (fun o => o.mismatchedPixels)) = some 1
    ∧ ¬ ((0 : ℤ) ≥ 1) := by
  refine ⟨by decide, by decide, by decide⟩

/-- Claim C3 as amended: for a fixed pair of present images and thresholds
0 < t1 < t2 <= 1 (the lower one nonzero, so that the falsy-zero fallback is
not triggered), the mismatch count at t1 is at least the count at t2. -/
theorem C3_amended_monotone (bImg cImg : Image) (bVp cVp : Viewport) (t1 t2 : ℚ)
    (hw : 0 < diffWidth bVp cVp) (hh : 0 < diffHeight bVp cVp)
    (h1 : 0 < t1) (h12 : t1 < t2) (h2 : t2 ≤ 1) :
    (((diffImagesAsync (some (bImg, bVp)) (some (cImg, cVp)) (some t2)).map
        (fun o => o.mismatchedPixels)).getD 0)
      ≤ (((diffImagesAsync (some (bImg, bVp)) (some (cImg, cVp)) (some t1)).map
        (fun o => o.mismatchedPixels)).getD 0) := by
  rw [diffImagesAsync_both_run, diffImagesAsync_both_run]
  simp only [Option.map_some', Option.getD_some]
  obtain ⟨_, _, m1, _⟩ := diffBothOutcome_char bImg cImg bVp cVp (some t1)
  obtain ⟨_, _, m2, _⟩ := diffBothOutcome_char bImg cImg bVp cVp (some t2)
  rw [m1, m2]
  simp only [bothMismatchCount]
  have hmono := mismatchCount_antitone (effectiveThreshold (some t1))
    (effectiveThreshold (some t2)) (effectiveThreshold_mono t1 t2 h1 h12)
    (srcRead bImg bVp (diffWidth bVp cVp)) (srcRead cImg cVp (diffWidth bVp cVp))
    (diffWidth bVp cVp) (diffHeight bVp cVp)
  exact_mod_cast hmono

theorem C3_amended_monotone_witness :
    (((diffImagesAsync
        (some (⟨⟨1, 1, [0xff000000]⟩, ⟨0, 0, 1, 1, 1⟩⟩ : Image × Viewport))
        (some (⟨⟨1, 1, [0xff000a00]⟩, ⟨0, 0, 1, 1, 1⟩⟩ : Image × Viewport))
        (some (mkRat 2 100))).map
        (fun o => o.mismatchedPixels)).getD 0)
      ≤ (((diffImagesAsync
        (some (⟨⟨1, 1, [0xff000000]⟩, ⟨0, 0, 1, 1, 1⟩⟩ : Image × Viewport))
        (some (⟨⟨1, 1, [0xff000a00]⟩, ⟨0, 0, 1, 1, 1⟩⟩ : Image × Viewport))
        (some (mkRat 1 100))).map
        (fun o => o.mismatchedPixels)).getD 0) :=
  C3_amended_monotone ⟨1, 1, [0xff000000]⟩ ⟨1, 1, [0xff000a00]⟩
    ⟨0, 0, 1, 1, 1⟩ ⟨0, 0, 1, 1, 1⟩ (mkRat 1 100) (mkRat 2 100)
    (by decide) (by decide) (by decide) (by decide) (by decide)

/-- Claim C4, counterexample: the claimed reference computation reads
`key = y * SPREAD + x'` with a per-row counter `x'` that advances across
the row, but the code's `diffHashIndex` is never incremented inside the
column loop, so every mismatch of a row shares the key `y * SPREAD`.  For a
2x1 pair with both pixels mismatched the code returns diffHash 4919
(= SPREAD) while the claimed computation gives 4920. -/
theorem C4_counterexample :
    ((diffImagesAsync (some (⟨⟨2, 1, [0xff000000, 0xff000000]⟩, ⟨0, 0, 2, 1, 1⟩⟩ : Image × Viewport))
        (some (⟨⟨2, 1, [0xffc8c8c8, 0xffc8c8c8]⟩, ⟨0, 0, 2, 1, 1⟩⟩ : Image × Viewport)) none).map
      (fun o => o.diffHash)) = some 4919
    ∧ specHashOfKeys (specCounterKeys (effectiveThreshold none)
        (srcRead ⟨2, 1, [0xff000000, 0xff000000]⟩ ⟨0, 0, 2, 1, 1⟩ 2)
        (srcRead ⟨2, 1, [0xffc8c8c8, 0xffc8c8c8]⟩ ⟨0, 0, 2, 1, 1⟩ 2) 2 1) = 4920
    ∧ (4919 : ℤ) ≠ 4920 := by
  refine ⟨by decide, by decide, by decide⟩

/-- Claim C4 as amended: the returned diffHash equals the reference
computation of spec section 4.4 with the per-row counter never advancing:
each mismatched pixel of row y gets the key y * SPREAD; the first mismatch
seeds diffHash with SPREAD and records its key as start; every subsequent
mismatch adds (key - start). -/
theorem C4_amended_hash (bImg cImg : Image) (bVp cVp : Viewport) (t : Option ℚ)
    (hw : 0 < diffWidth bVp cVp) (hh : 0 < diffHeight bVp cVp) :
    ((diffImagesAsync (some (bImg, bVp)) (some (cImg, cVp)) t).map
      (fun o => o.diffHash))
      = some (specHashOfKeys (bothMismatchKeys bImg cImg bVp cVp t)) := by
  rw [diffImagesAsync_both_run, Option.map_some']
  obtain ⟨_, _, _, h4, _⟩ := diffBothOutcome_char bImg cImg bVp cVp t
  rw [h4]
  simp only [bothMismatchKeys]
  rw [hashFold_fst_eq_specHash]

theorem C4_amended_hash_witness :
    ((diffImagesAsync
        (some (⟨⟨2, 1, [0xff000000, 0xff000000]⟩, ⟨0, 0, 2, 1, 1⟩⟩ : Image × Viewport))
        (some (⟨⟨2, 1, [0xffc8c8c8, 0xffc8c8c8]⟩, ⟨0, 0, 2, 1, 1⟩⟩ : Image × Viewport))
        none).map
      (fun o => o.diffHash))
      = some (specHashOfKeys (bothMismatchKeys ⟨2, 1, [0xff000000, 0xff000000]⟩
          ⟨2, 1, [0xffc8c8c8, 0xffc8c8c8]⟩ ⟨0, 0, 2, 1, 1⟩ ⟨0, 0, 2, 1, 1⟩ none)) :=
  C4_amended_hash ⟨2, 1, [0xff000000, 0xff000000]⟩ ⟨2, 1, [0xffc8c8c8, 0xffc8c8c8]⟩
    ⟨0, 0, 2, 1, 1⟩ ⟨0, 0, 2, 1, 1⟩ none (by decide) (by decide)

/-- Claim C5: for every comparison with both images present, diffHash is 0
exactly when mismatchedPixels is 0 (equivalently, any mismatch makes
diffHash nonzero): the two decidable tests always agree. -/
theorem C5_hash_zero_iff (bImg cImg : Image) (bVp cVp : Viewport) (t : Option ℚ)
    (hw : 0 < diffWidth bVp cVp) (hh : 0 < diffHeight bVp cVp) :
    ((diffImagesAsync (some (bImg, bVp)) (some (cImg, cVp)) t).map
      (fun o => decide (o.diffHash = 0) == decide (o.mismatchedPixels = 0)))
      = some true := by
  rw [diffImagesAsync_both_run, Option.map_some']
  obtain ⟨_, _, h3, h4, _⟩ := diffBothOutcome_char bImg cImg bVp cVp t
  rw [h3, h4]
  simp only [bothMismatchKeys, bothMismatchCount, hashFold_fst_eq_specHash,
    Option.some.injEq]
  rw [beq_iff_eq, decide_eq_decide]
  rw [specHash_mismatchKeys_eq_zero_iff]
  exact_mod_cast Iff.rfl

theorem C5_hash_zero_iff_witness :
    ((diffImagesAsync
        (some (⟨⟨1, 1, [0xff000000]⟩, ⟨0, 0, 1, 1, 1⟩⟩ : Image × Viewport))
        (some (⟨⟨1, 1, [0xffffffff]⟩, ⟨0, 0, 1, 1, 1⟩⟩ : Image × Viewport)) none).map
      (fun o => decide (o.diffHash = 0) == decide (o.mismatchedPixels = 0)))
      = some true :=
  C5_hash_zero_iff ⟨1, 1, [0xff000000]⟩ ⟨1, 1, [0xffffffff]⟩
    ⟨0, 0, 1, 1, 1⟩ ⟨0, 0, 1, 1, 1⟩ none (by decide) (by decide)

/-- Claim C6, counterexample: a threshold of 0 does NOT yield an effective
threshold of 255 * 0 = 0: JavaScript `threshold || DEFAULT_THRESHOLD`
treats 0 as falsy, so threshold 0 falls back to the default 0.03 and the
effective threshold is 7.65. -/
theorem C6_counterexample :
    effectiveThreshold (some 0) = 255 * DEFAULT_THRESHOLD
    ∧ effectiveThreshold (some 0) ≠ 255 * 0 := by
  refine ⟨effectiveThreshold_zero, ?_⟩
  rw [effectiveThreshold_zero]
  decide

/-- Claim C6 as amended: for every nonzero threshold the effective per-pixel
threshold is 255 * clamp(threshold, 0, 1); a missing or invalid threshold
falls back to the default 0.03, and so does a threshold of exactly 0
(falsy in JavaScript), rather than yielding 0. -/
theorem C6_amended_threshold (t : ℚ) (ht : t ≠ 0) :
    effectiveThreshold (some t) = 255 * min 1 (max 0 t)
    ∧ effectiveThreshold none = 255 * DEFAULT_THRESHOLD
    ∧ effectiveThreshold (some 0) = 255 * DEFAULT_THRESHOLD :=
  ⟨effectiveThreshold_of_ne_zero t ht, effectiveThreshold_none, effectiveThreshold_zero⟩

theorem C6_amended_threshold_witness :
    effectiveThreshold (some (mkRat 1 2)) = 255 * min 1 (max 0 (mkRat 1 2))
    ∧ effectiveThreshold none = 255 * DEFAULT_THRESHOLD
    ∧ effectiveThreshold (some 0) = 255 * DEFAULT_THRESHOLD :=
  C6_amended_threshold (mkRat 1 2) (by decide)

/-- Claim C7, counterexample: at the mismatched odd-parity cell (x,y)=(1,0)
of a 2x1 black-vs-gray pair (neither pixel pure white), the BASELINE-side
panel pixel (canvas index 1) receives the red-dominant tint and the
CANDIDATE-side panel pixel (canvas index 5) receives the green-dominant
tint — the red byte of the candidate-side pixel is smaller than its green
byte, and vice versa on the baseline side — the opposite of the claim's
assignment of red to the candidate side and green to the baseline side. -/
theorem C7_counterexample :
    ((diffImagesAsync (some (⟨⟨2, 1, [0xff000000, 0xff000000]⟩, ⟨0, 0, 2, 1, 1⟩⟩ : Image × Viewport))
        (some (⟨⟨2, 1, [0xffc8c8c8, 0xffc8c8c8]⟩, ⟨0, 0, 2, 1, 1⟩⟩ : Image × Viewport)) none).map
      (fun o => (listGet o.canvas 1, listGet o.canvas 5)))
      = some (0xff6060e0, 0xff79f979)
    ∧ byteAt 0xff79f979 0 < byteAt 0xff79f979 1
    ∧ byteAt 0xff6060e0 1 < byteAt 0xff6060e0 0 := by
  refine ⟨by decide, by decide, by decide⟩

/-- Claim C7 as amended: for every mismatched pixel at odd (x+y), the
BASELINE-side panel pixel is tinted toward red unless the CANDIDATE pixel
is pure white, and the CANDIDATE-side panel pixel is tinted toward green
unless the BASELINE pixel is pure white; when the guarding pixel is pure
white the respective side-panel pixel keeps its copied value. -/
theorem C7_amended_tints (bImg cImg : Image) (bVp cVp : Viewport) (t : Option ℚ)
    (y x : Nat) (hy : y < diffHeight bVp cVp) (hx : x < diffWidth bVp cVp)
    (hmis : isMismatch (effectiveThreshold t)
      (srcRead bImg bVp (diffWidth bVp cVp) y x)
      (srcRead cImg cVp (diffWidth bVp cVp) y x) = true)
    (hodd : (x + y) % 2 = 1) :
    ((diffImagesAsync (some (bImg, bVp)) (some (cImg, cVp)) t).map
      (fun o => (listGet o.canvas (y * diffWidth bVp cVp * 3 + x),
        listGet o.canvas (y * diffWidth bVp cVp * 3 + 2 * diffWidth bVp cVp + x))))
      = some
        ((if srcRead cImg cVp (diffWidth bVp cVp) y x ≠ WHITE_ABGR then
            bgrShift (srcRead bImg bVp (diffWidth bVp cVp) y x) ||| 0xff6060e0
          else srcRead bImg bVp (diffWidth bVp cVp) y x),
         (if srcRead bImg bVp (diffWidth bVp cVp) y x ≠ WHITE_ABGR then
            bgrShift (srcRead cImg cVp (diffWidth bVp cVp) y x) ||| 0xff60e060
          else srcRead cImg cVp (diffWidth bVp cVp) y x)) := by
  rw [diffImagesAsync_both_run, Option.map_some']
  obtain ⟨_, _, _, _, h5, h6⟩ := diffBothOutcome_char bImg cImg bVp cVp t
  rw [h5 y x hy hx, h6 y x hy hx, leftFinalPix, rightFinalPix]
  simp [hmis, hodd]

theorem C7_amended_tints_witness :
    ((diffImagesAsync
        (some (⟨⟨2, 1, [0xff000000, 0xff000000]⟩, ⟨0, 0, 2, 1, 1⟩⟩ : Image × Viewport))
        (some (⟨⟨2, 1, [0xffc8c8c8, 0xffc8c8c8]⟩, ⟨0, 0, 2, 1, 1⟩⟩ : Image × Viewport))
        none).map
      (fun o => (listGet o.canvas
          (0 * diffWidth ⟨0, 0, 2, 1, 1⟩ ⟨0, 0, 2, 1, 1⟩ * 3 + 1),
        listGet o.canvas (0 * diffWidth ⟨0, 0, 2, 1, 1⟩ ⟨0, 0, 2, 1, 1⟩ * 3
          + 2 * diffWidth ⟨0, 0, 2, 1, 1⟩ ⟨0, 0, 2, 1, 1⟩ + 1))))
      = some
        ((if srcRead ⟨2, 1, [0xffc8c8c8, 0xffc8c8c8]⟩ ⟨0, 0, 2, 1, 1⟩
              (diffWidth ⟨0, 0, 2, 1, 1⟩ ⟨0, 0, 2, 1, 1⟩) 0 1 ≠ WHITE_ABGR then
            bgrShift (srcRead ⟨2, 1, [0xff000000, 0xff000000]⟩ ⟨0, 0, 2, 1, 1⟩
              (diffWidth ⟨0, 0, 2, 1, 1⟩ ⟨0, 0, 2, 1, 1⟩) 0 1) ||| 0xff6060e0
          else srcRead ⟨2, 1, [0xff000000, 0xff000000]⟩ ⟨0, 0, 2, 1, 1⟩
              (diffWidth ⟨0, 0, 2, 1, 1⟩ ⟨0, 0, 2, 1, 1⟩) 0 1),
         (if srcRead ⟨2, 1, [0xff000000, 0xff000000]⟩ ⟨0, 0, 2, 1, 1⟩
              (diffWidth ⟨0, 0, 2, 1, 1⟩ ⟨0, 0, 2, 1, 1⟩) 0 1 ≠ WHITE_ABGR then
            bgrShift (srcRead ⟨2, 1, [0xffc8c8c8, 0xffc8c8c8]⟩ ⟨0, 0, 2, 1, 1⟩
              (diffWidth ⟨0, 0, 2, 1, 1⟩ ⟨0, 0, 2, 1, 1⟩) 0 1) ||| 0xff60e060
          else srcRead ⟨2, 1, [0xffc8c8c8, 0xffc8c8c8]⟩ ⟨0, 0, 2, 1, 1⟩
              (diffWidth ⟨0, 0, 2, 1, 1⟩ ⟨0, 0, 2, 1, 1⟩) 0 1)) :=
  C7_amended_tints ⟨2, 1, [0xff000000, 0xff000000]⟩ ⟨2, 1, [0xffc8c8c8, 0xffc8c8c8]⟩
    ⟨0, 0, 2, 1, 1⟩ ⟨0, 0, 2, 1, 1⟩ none 0 1 (by decide) (by decide) (by decide) (by decide)

/-- Claim C8: diffing an image against itself (same decoded pixels and the
same viewport on both sides) at any threshold in [0, 1] yields 0
mismatched pixels, diffHash 0, and no diff file written (the effective
threshold is strictly positive even at threshold 0 thanks to the default
fallback, and equal packed words have brightness difference 0). -/
theorem C8_identity (img : Image) (vp : Viewport) (t : ℚ)
    (h0 : 0 ≤ t) (h1 : t ≤ 1) (hw : 0 < vp.width) (hh : 0 < vp.height) :
    ((diffImagesAsync (some (img, vp)) (some (img, vp)) (some t)).map
      (fun o => (o.mismatchedPixels, o.diffHash, diffFileWritten o)))
      = some (0, 0, false) := by
  rw [diffImagesAsync_both_run, Option.map_some']
  obtain ⟨_, _, h3, h4, _⟩ := diffBothOutcome_char img img vp vp (some t)
  have hT := effectiveThreshold_pos t h0 h1
  have hcnt : bothMismatchCount img img vp vp (some t) = 0 := by
    unfold bothMismatchCount
    exact mismatchCount_self _ hT _ _ _
  have hkeys : bothMismatchKeys img img vp vp (some t) = [] := by
    unfold bothMismatchKeys
    exact mismatchKeys_self _ hT _ _ _
  have hmis : (diffBothOutcome img img vp vp (some t)).mismatchedPixels = 0 := by
    rw [h3, hcnt]
    rfl
  have hhash : (diffBothOutcome img img vp vp (some t)).diffHash = 0 := by
    rw [h4, hkeys]
    rfl
  rw [hmis, hhash]
  simp [diffFileWritten, hmis]

theorem C8_identity_witness :
    ((diffImagesAsync
        (some (⟨⟨1, 1, [0xff000000]⟩, ⟨0, 0, 1, 1, 1⟩⟩ : Image × Viewport))
        (some (⟨⟨1, 1, [0xff000000]⟩, ⟨0, 0, 1, 1, 1⟩⟩ : Image × Viewport))
        (some (mkRat 1 2))).map
      (fun o => (o.mismatchedPixels, o.diffHash, diffFileWritten o)))
      = some (0, 0, false) :=
  C8_identity ⟨1, 1, [0xff000000]⟩ ⟨0, 0, 1, 1, 1⟩ (mkRat 1 2)
    (by decide) (by decide) (by decide) (by decide)

/-- Claim C9: a 4x4 fully-opaque black baseline against a 4x4 fully-opaque
white candidate at threshold 0.03 yields 16 mismatched pixels, a nonzero
diffHash (122975), a written diff file, and a 12x4 diff canvas. -/
theorem C9_scenario :
    ((diffImagesAsync
        (some (⟨⟨4, 4, List.replicate 16 0xff000000⟩, ⟨0, 0, 4, 4, 1⟩⟩ : Image × Viewport))
        (some (⟨⟨4, 4, List.replicate 16 0xffffffff⟩, ⟨0, 0, 4, 4, 1⟩⟩ : Image × Viewport))
        (some (mkRat 3 100))).map
      (fun o => (o.mismatchedPixels, o.diffHash, diffFileWritten o,
        o.canvasWidth, o.canvasHeight)))
      = some (16, 122975, true, 12, 4)
    ∧ (122975 : ℤ) ≠ 0 := by
  refine ⟨by decide, by decide⟩

/-- Claim C10 (implicit): with both images present the comparison runs over
the componentwise-maximum bounds, and `mismatchedPixels` is exactly the
number of cells of those bounds whose two per-side words — the copied
source word where the row-copy bound check passed, and the
zero-initialised (transparent black) canvas word 0 where it failed, as
`srcRead` spells out — are classified as mismatched; cells against
zero-filled rows are counted like any others, not skipped. -/
theorem C10_union_bounds_zero_fill (bImg cImg : Image) (bVp cVp : Viewport) (t : Option ℚ)
    (hw : 0 < diffWidth bVp cVp) (hh : 0 < diffHeight bVp cVp) :
    ((diffImagesAsync (some (bImg, bVp)) (some (cImg, cVp)) t).map
      (fun o => o.mismatchedPixels))
      = some ((mismatchCount (effectiveThreshold t)
          (srcRead bImg bVp (diffWidth bVp cVp)) (srcRead cImg cVp (diffWidth bVp cVp))
          (diffWidth bVp cVp) (diffHeight bVp cVp) : Nat) : ℤ) := by
  rw [diffImagesAsync_both_run, Option.map_some']
  obtain ⟨_, _, h3, _⟩ := diffBothOutcome_char bImg cImg bVp cVp t
  rw [h3]
  simp only [bothMismatchCount]

theorem C10_union_bounds_zero_fill_witness :
    ((diffImagesAsync
        (some (⟨⟨1, 1, [0xff000000]⟩, ⟨0, 0, 1, 1, 1⟩⟩ : Image × Viewport))
        (some (⟨⟨1, 2, [0xffffffff, 0xffffffff]⟩, ⟨0, 0, 1, 2, 1⟩⟩ : Image × Viewport))
        none).map
      (fun o => o.mismatchedPixels))
      = some ((mismatchCount (effectiveThreshold none)
          (srcRead ⟨1, 1, [0xff000000]⟩ ⟨0, 0, 1, 1, 1⟩
            (diffWidth ⟨0, 0, 1, 1, 1⟩ ⟨0, 0, 1, 2, 1⟩))
          (srcRead ⟨1, 2, [0xffffffff, 0xffffffff]⟩ ⟨0, 0, 1, 2, 1⟩
            (diffWidth ⟨0, 0, 1, 1, 1⟩ ⟨0, 0, 1, 2, 1⟩))
          (diffWidth ⟨0, 0, 1, 1, 1⟩ ⟨0, 0, 1, 2, 1⟩)
          (diffHeight ⟨0, 0, 1, 1, 1⟩ ⟨0, 0, 1, 2, 1⟩) : Nat) : ℤ) :=
  C10_union_bounds_zero_fill ⟨1, 1, [0xff000000]⟩ ⟨1, 2, [0xffffffff, 0xffffffff]⟩
    ⟨0, 0, 1, 1, 1⟩ ⟨0, 0, 1, 2, 1⟩ none (by decide) (by decide)

end ClaimTheorems

end ScreenshotsDiff
